import Mathlib

/-!
Shallow embedding of the core of the `prisma-engines` query compilation
runtime (fork by vetching-corporation), covering:

* `sql-query-builder`: parameter chunking (`chunked_conditions`,
  `in_conditions`, `PARAMETER_LIMIT`), `Context::target_schema`,
  `db_name_with_schema`, `build_create_record`;
* `query-engine/core` `Expressionista`: translation of a query graph into
  an expression tree (`build_expression`, `transform_node`,
  `fold_result_scopes`, ...).

Rust panics (`panic!`, `expect`, `unreachable!`, `unwrap`) are modelled as a
distinct error channel (`RunError.panicked`) separate from returned error
values (`RunError.interp`), mirroring the fact that a Rust panic unwinds
past `map_err` and `?` combinators.
-/

/-- A scalar value as carried in query parameters.  Restriction of Prisma
`PrismaValue` to the constructors the embedded code inspects: integers,
strings, and named placeholders (used by the MySQL defaults machinery and
the placeholder fast-path of `in_conditions`). -/
inductive PrismaValue where
  | int (n : Int)
  | text (s : String)
  | placeholder (name : String) (type_ : String)
deriving DecidableEq, Repr

/-- A materialized projection of a row: `(field, value)` pairs
(`query_structure::SelectionResult`). -/
structure SelectionResult where
  pairs : List (String × PrismaValue)
deriving DecidableEq, Repr

/-- `SelectionResult::as_placeholders`: `some pairs` iff every value of the
selection is a placeholder. -/
def SelectionResult.asPlaceholders (r : SelectionResult) :
    Option (List (String × PrismaValue)) :=
  if r.pairs.all (fun p => match p.2 with | .placeholder _ _ => true | _ => false)
      && !r.pairs.isEmpty
  then some r.pairs else none

/-- `SelectionResult::db_values`: the list of bind values of the row. -/
def SelectionResult.dbValues (r : SelectionResult) : List PrismaValue :=
  r.pairs.map (·.2)

/-- Interpreter error values (`InterpreterError`): returned, not thrown. -/
inductive InterpreterError where
  | envVarNotFound (msg : String)
  | interpretationError (msg : String) (cause : Option InterpreterError)
  | generic (msg : String)

/-- Decidable equality for `InterpreterError` (the nested `Option` defeats
the deriving handler, so it is spelled out). -/
def InterpreterError.decEq : (a b : InterpreterError) → Decidable (a = b)
  | .envVarNotFound x, .envVarNotFound y =>
    match String.decEq x y with
    | isTrue h => isTrue (by rw [h])
    | isFalse h => isFalse (by intro hh; cases hh; exact h rfl)
  | .generic x, .generic y =>
    match String.decEq x y with
    | isTrue h => isTrue (by rw [h])
    | isFalse h => isFalse (by intro hh; cases hh; exact h rfl)
  | .interpretationError m c, .interpretationError m' c' =>
    match String.decEq m m' with
    | isFalse h => isFalse (by intro hh; cases hh; exact h rfl)
    | isTrue h =>
      match c, c' with
      | none, none => isTrue (by rw [h])
      | some x, some y =>
        match InterpreterError.decEq x y with
        | isTrue h2 => isTrue (by rw [h, h2])
        | isFalse h2 => isFalse (by intro hh; cases hh; exact h2 rfl)
      | none, some _ => isFalse (by intro hh; cases hh)
      | some _, none => isFalse (by intro hh; cases hh)
  | .envVarNotFound _, .interpretationError _ _ => isFalse (by intro hh; cases hh)
  | .envVarNotFound _, .generic _ => isFalse (by intro hh; cases hh)
  | .interpretationError _ _, .envVarNotFound _ => isFalse (by intro hh; cases hh)
  | .interpretationError _ _, .generic _ => isFalse (by intro hh; cases hh)
  | .generic _, .envVarNotFound _ => isFalse (by intro hh; cases hh)
  | .generic _, .interpretationError _ _ => isFalse (by intro hh; cases hh)

instance : DecidableEq InterpreterError := InterpreterError.decEq

/-- Outcome channel distinguishing Rust panics from returned errors. -/
inductive RunError where
  | panicked (msg : String)
  | interp (e : InterpreterError)
deriving DecidableEq

/-- `InterpretationResult<T>` plus the panic channel. -/
abbrev RunResult (α : Type) := Except RunError α

/-! ## Context and DynamicSchema
(`sql-query-builder/src/context.rs`, `dynamic_schema.rs`) -/

/-- SQL dialect family tag (`quaint::prelude::SqlFamily`). -/
inductive SqlFamily where
  | postgres | mysql | sqlite | mssql
deriving DecidableEq, Repr

/-- `DynamicSchema`: a mapping from origin schema name to target schema
name, backed by a `HashMap<String, String>`.  We model hash-map lookup by
association-list lookup on the first matching key. -/
structure DynamicSchema where
  map : List (String × String)
deriving Repr

/-- `HashMap::is_empty` on the dynamic schema. -/
def DynamicSchema.isEmpty (d : DynamicSchema) : Bool := d.map.isEmpty

/-- `HashMap::get` on the dynamic schema. -/
def DynamicSchema.get (d : DynamicSchema) (origin : String) : Option String :=
  d.map.lookup origin

/-- The per-compilation `Context` (fields the embedded code consults).
`schemaName` is the connection default schema (`connection_info.schema_name()`). -/
structure Context where
  schemaName : Option String
  sqlFamily : SqlFamily
  maxInsertRows : Option Nat
  maxBindValues : Option Nat
  dynamicSchema : DynamicSchema
deriving Repr

/-- `Context::target_schema`: if the dynamic schema map is empty, return
`Some(origin)`; otherwise `map.get(origin)`. -/
def Context.targetSchema (ctx : Context) (originSchema : String) : Option String :=
  if ctx.dynamicSchema.isEmpty then some originSchema
  else ctx.dynamicSchema.get originSchema

/-! ## Table qualification
(`sql-query-builder/src/model_extensions/table.rs`) -/

/-- A (possibly schema-qualified) table reference (`quaint::ast::Table`). -/
structure Table where
  schema : Option String
  name : String
deriving DecidableEq, Repr

/-- The slice of `query_structure::Model` that `db_name_with_schema`
consults: the declared origin schema (`walker().schema_name()`) and the
database table name (`db_name()`). -/
structure ModelRef where
  schemaName : Option String
  dbName : String
deriving Repr

/-- `db_name_with_schema`: qualify the model table.  If the model declares
an origin schema, consult `target_schema(origin)` and fall back to the
origin itself; otherwise fall back to the connection default schema. -/
def dbNameWithSchema (m : ModelRef) (ctx : Context) : Table :=
  let schemaQualifier :=
    (m.schemaName.bind fun originSchema =>
      (ctx.targetSchema originSchema).orElse fun _ => some originSchema).orElse
      fun _ => ctx.schemaName
  match schemaQualifier with
  | some q => { schema := some q, name := m.dbName }
  | none => { schema := none, name := m.dbName }

/-! ## Parameter chunking
(`sql-query-builder/src/lib.rs`, `chunked_conditions` / `in_conditions`) -/

/-- `PARAMETER_LIMIT` constant from `lib.rs`. -/
def PARAMETER_LIMIT : Nat := 2000

/-- Structural worker for `listChunks`: the bound is the list length, which
dominates the number of chunks whenever the chunk size is positive. -/
def listChunksGo (k : Nat) (fuel : Nat) (l : List α) : List (List α) :=
  match fuel, l with
  | _, [] => []
  | 0, _ :: _ => []
  | fuel+1, x :: xs => (x :: xs).take k :: listChunksGo k fuel ((x :: xs).drop k)
termination_by structural fuel

/-- `slice::chunks(k)`: split a list into consecutive chunks of size `k`
(last chunk possibly shorter).  `chunks(0)` panics in Rust and is
unreachable here because the only chunk size used is `PARAMETER_LIMIT`. -/
def listChunks (k : Nat) (l : List α) : List (List α) :=
  listChunksGo k l.length l

/-- The shape of the condition tree produced by `in_conditions`:
either a literal `Row(columns) IN (VALUES ...)`, a parameterized-row `IN`
for one column, or a conjunction. -/
inductive ConditionTree where
  | inValues (columns : List String) (values : List (List PrismaValue))
  | inParamRow (column : String) (field : String) (value : PrismaValue)
  | and (l r : ConditionTree)
deriving DecidableEq, Repr

/-- Number of bind parameters a condition tree carries. -/
def ConditionTree.paramCount : ConditionTree → Nat
  | .inValues _ values => (values.map List.length).sum
  | .inParamRow _ _ _ => 1
  | .and l r => l.paramCount + r.paramCount

/-- `in_conditions`: if the results are exactly one selection made of
placeholders, emit parameterized-row `IN` conditions (one per column,
conjoined); the `reduce` panics when there are no columns.  Otherwise emit
a literal `VALUES` list over all rows. -/
def inConditions (columns : List String) (results : List SelectionResult)
    (_ctx : Context) : RunResult ConditionTree :=
  match results with
  | [res] =>
    match res.asPlaceholders with
    | some pairs =>
      match (pairs.zip columns).map (fun pc => ConditionTree.inParamRow pc.2 pc.1.1 pc.1.2) with
      | [] => .error (.panicked "should have at least one column")
      | t :: ts => .ok (ts.foldl ConditionTree.and t)
    | none => .ok (.inValues columns ([res].map SelectionResult.dbValues))
  | rs => .ok (.inValues columns (rs.map SelectionResult.dbValues))

/-- `chunked_conditions`: split `records` into chunks of `PARAMETER_LIMIT`
and emit one query per chunk via the caller-supplied wrapper `f`. -/
def chunkedConditions (columns : List String) (records : List SelectionResult)
    (ctx : Context) (f : ConditionTree → α) : RunResult (List α) :=
  (listChunks PARAMETER_LIMIT records).mapM
    (fun chunk => (inConditions columns chunk ctx).map f)

/-! ## Expression compiler data model
(`query-engine/core/src/interpreter/expressionista.rs` and its collaborators;
the `query_graph` / `expression` modules are not part of the excerpt and are
modelled from the spec where noted.) -/

/-- Modelled from the spec: a field selection (`query_structure::FieldSelection`)
is treated as an opaque tag; projection of a binding onto a selection is
modelled by `ExpressionResult.asSelectionResults`. -/
structure FieldSelection where
  tag : String
deriving DecidableEq, Repr

/-- An interpreter value bound in the environment.  The compiler itself only
ever constructs `FixedResult` wrappers over selection lists (spec §3.2);
query results produced by the interpreter are outside the excerpt. -/
inductive ExpressionResult where
  | fixedResult (rows : List SelectionResult)
deriving DecidableEq, Repr

/-- Modelled from the spec: `ExpressionResult::as_selection_results`
projects the binding as selection results for the given selection.  We
model the projection as returning the rows of a `FixedResult`. -/
def ExpressionResult.asSelectionResults (r : ExpressionResult)
    (_selection : FieldSelection) : Except InterpreterError (List SelectionResult) :=
  match r with
  | .fixedResult rows => .ok rows

/-- Modelled from the spec: an expectation carried on an edge, checked
against the parent binding at interpretation time; failure surfaces as an
`InterpreterError`. -/
def Expectation := ExpressionResult → Except InterpreterError Unit

/-- Modelled from the spec: `SelectionResult::filter()` converts a row into
a filter; the filter payload itself is opaque to the compiler. -/
structure RowFilter where
  pairs : List (String × PrismaValue)
deriving DecidableEq, Repr

def SelectionResult.filter (r : SelectionResult) : RowFilter := ⟨r.pairs⟩

/-- Modelled from the spec: a write argument; `inject` assimilates a parent
row into the argument. -/
structure WriteArg where
  injected : List SelectionResult
deriving DecidableEq, Repr

def WriteArg.inject (a : WriteArg) (row : SelectionResult) : WriteArg :=
  ⟨a.injected ++ [row]⟩

/-- Modelled from the spec: `FieldSelection::assimilate` coerces a row under
the selection; we model it as the identity embedding. -/
def FieldSelection.assimilate (_sel : FieldSelection) (row : SelectionResult) :
    Except InterpreterError SelectionResult := .ok row

structure Model where
  name : String
deriving DecidableEq, Repr

/-- Modelled from the spec: `WriteArgs::update_datetimes` refreshes
`@updatedAt`-style fields; no datetime content is modelled, so it is the
identity on the argument. -/
def WriteArg.updateDatetimes (a : WriteArg) (_m : Model) : WriteArg := a

/-- The `RowSink` consumer variants of a `ProjectedDataSinkDependency`.
The designated node input field of each variant is modelled as a fixed
field of `QueryNode` (the `node_input_field` machinery is external). -/
inductive RowSink where
  | single
  | all
  | atMostOne
  | exactlyOne
  | exactlyOneFilter
  | exactlyOneWriteArgs (selection : FieldSelection)
  | discard

/-- `RowCountSink` (currently only `Discard`). -/
inductive RowCountSink where
  | discard

/-- The semantic query payload of a `Query` graph node (`crate::Query`),
restricted to the fields the sink variants write into: a single-row input,
a row-list input, a filter input, write args, and the model. -/
structure QueryNode where
  id : Nat
  singleRow : SelectionResult
  rowList : List SelectionResult
  filterField : RowFilter
  writeArgs : List WriteArg
  model : Option Model

/-- Modelled from the spec: an `If` rule is a predicate evaluated against a
fixed result payload (`rule.matches_result`). -/
def FlowRule := ExpressionResult → Bool

/-- `Flow` node variants. -/
inductive FlowNode where
  | ifRule (rule : FlowRule) (data : List SelectionResult)
  | ret (result : List SelectionResult)

/-- Set-difference payload (`DiffNode`). -/
structure DiffNode where
  left : List SelectionResult
  right : List SelectionResult

/-- `Computation` node variants. -/
inductive ComputationNode where
  | diffLeftToRight (d : DiffNode)
  | diffRightToLeft (d : DiffNode)

/-- Graph node content (`query_graph::Node`). -/
inductive Node where
  | query (q : QueryNode)
  | flow (f : FlowNode)
  | computation (c : ComputationNode)
  | empty

/-- `Node::as_query().map(Query::model)`. -/
def Node.queryModel : Node → Option Model
  | .query q => q.model
  | _ => none

/-- The transformer carried by a `ProjectedDataDependency`: a pure function
`(Node, Vec<SelectionResult>) → Result<Node>`. -/
def NodeTransformer := Node → List SelectionResult → Except InterpreterError Node

/-- Edge payloads (`QueryGraphDependency`). -/
inductive QueryGraphDependency where
  | execOrder
  | thenBranch
  | elseBranch
  | projectedDataDependency (selection : FieldSelection) (f : NodeTransformer)
      (expectation : Option Expectation)
  | projectedDataSinkDependency (selection : FieldSelection) (consumer : RowSink)
      (expectation : Option Expectation)
  | dataDependency (consumer : RowCountSink) (expectation : Option Expectation)

/-- The binding environment threaded through `Func` closures. -/
def Env := List (String × ExpressionResult)

def Env.get (env : Env) (name : String) : Option ExpressionResult :=
  List.lookup name env

/- The expression tree emitted by the compiler (`interpreter::expression`,
modelled from spec §3.2).  `Binding { name, expr }` is inlined as a pair.
A `Func` closure returns `InterpretationResult<Expression>`; the kernel
does not accept `Except` applied to the type under definition inside a
function codomain, so the closure result is the mutually defined
`FuncResult` (isomorphic to `RunResult Expression`). -/
mutual
/-- Expression tree (spec §3.2). -/
inductive Expression where
  | sequence (seq : List Expression)
  | letIn (bindings : List (String × Expression)) (expressions : List Expression)
  | get (bindingName : String)
  | getFirstNonEmpty (bindingNames : List String)
  | query (q : QueryNode)
  | func (f : Env → FuncResult)
  | ifCond (f : Unit → Bool) (thenList : List Expression) (elseList : List Expression)
  | ret (result : ExpressionResult)

/-- Result of a `Func` closure. -/
inductive FuncResult where
  | ok (e : Expression)
  | error (e : RunError)
end

abbrev Binding := String × Expression

/-- View a `FuncResult` as the `RunResult` it stands for. -/
def FuncResult.toExcept : FuncResult → RunResult Expression
  | .ok e => .ok e
  | .error e => .error e

/-- Wrap a `RunResult Expression` as a `FuncResult`. -/
def FuncResult.ofExcept : RunResult Expression → FuncResult
  | .ok e => .ok e
  | .error e => .error e

/-! ## Query graph
Modelled from the spec (§3.1): the `query_graph` module is not part of the
excerpt.  The static part of a graph (edge endpoints, result flags) is
never mutated by the compiler and is kept in `GraphShape`; the mutable part
(node contents, visited marks, edge contents, consumed by `pluck_node` /
`mark_visited` / `pluck_edge`) lives in `GraphState` and is threaded
explicitly. -/

structure GraphEdge where
  source : Nat
  target : Nat
deriving DecidableEq, Repr

/-- Static graph data: node count, edge endpoints (edge index = position),
and the result-node flags. -/
structure GraphShape where
  nodeCount : Nat
  edges : List GraphEdge
  resultFlags : List Bool
deriving Repr

/-- Mutable graph data: node contents (`None` once plucked), visited marks,
and edge contents (`None` once plucked). -/
structure GraphState where
  nodeContents : List (Option Node)
  visited : List Bool
  edgeContents : List (Option QueryGraphDependency)

/-- `graph.node_content(node)`. -/
def nodeContentAt (st : GraphState) (n : Nat) : Option Node :=
  (st.nodeContents.getD n none)

/-- `graph.edge_content(edge)`. -/
def edgeContentAt (st : GraphState) (e : Nat) : Option QueryGraphDependency :=
  (st.edgeContents.getD e none)

/-- `graph.mark_visited(node)`. -/
def markVisited (st : GraphState) (n : Nat) : GraphState :=
  { st with visited := st.visited.set n true }

def isVisited (st : GraphState) (n : Nat) : Bool :=
  st.visited.getD n false

/-- `graph.pluck_node(node)`: move the node content out of the graph.
Plucking an already-plucked node cannot happen in a well-formed run and is
a panic. -/
def pluckNode (st : GraphState) (n : Nat) : RunResult (Node × GraphState) :=
  match nodeContentAt st n with
  | none => .error (.panicked ("Node content " ++ toString n ++ " was empty"))
  | some node => .ok (node, { st with nodeContents := st.nodeContents.set n none })

/-- `graph.pluck_edge(edge)`: move the edge content out of the graph. -/
def pluckEdge (st : GraphState) (e : Nat) :
    Option QueryGraphDependency × GraphState :=
  (edgeContentAt st e, { st with edgeContents := st.edgeContents.set e none })

/-- `graph.edge_source(edge)` (static). -/
def edgeSource (G : GraphShape) (e : Nat) : Nat :=
  ((G.edges.get? e).map (·.source)).getD 0

/-- `graph.incoming_edges(node)` (edge indices, low to high). -/
def incomingEdges (G : GraphShape) (n : Nat) : List Nat :=
  (List.range G.edges.length).filter fun e =>
    match G.edges.get? e with
    | some edge => edge.target == n
    | none => false

/-- `graph.direct_child_pairs(node)`: ordered `(edge, child)` pairs of the
outgoing edges whose child has not been visited yet (spec §3.1: a plucked /
visited node cannot be visited twice). -/
def directChildPairs (G : GraphShape) (st : GraphState) (n : Nat) :
    List (Nat × Nat) :=
  ((List.range G.edges.length).filterMap fun e =>
    match G.edges.get? e with
    | some edge =>
      if edge.source == n && !isVisited st edge.target then some (e, edge.target)
      else none
    | none => none)

/-- `graph.is_result_node(node)` (static flag). -/
def isResultNode (G : GraphShape) (n : Nat) : Bool :=
  G.resultFlags.getD n false

/-- `graph.result_nodes()` (static). -/
def resultNodes (G : GraphShape) : List Nat :=
  (List.range G.nodeCount).filter (isResultNode G)

/-- Bounded descendant search for `subgraph_contains_result`. -/
def containsResultAux (G : GraphShape) : Nat → Nat → Bool
  | 0, _ => false
  | fuel+1, n =>
    isResultNode G n ||
    (G.edges.filter (·.source == n)).any fun e => containsResultAux G fuel e.target

/-- `graph.subgraph_contains_result(node)`: true iff `node` or any
descendant is a result node (path length in a DAG is bounded by the node
count). -/
def subgraphContainsResult (G : GraphShape) (n : Nat) : Bool :=
  containsResultAux G (G.nodeCount + 1) n

/-- `graph.root_nodes()`: nodes without incoming edges. -/
def rootNodes (G : GraphShape) : List Nat :=
  (List.range G.nodeCount).filter fun n =>
    !(G.edges.any (·.target == n))

/-- A user-facing query graph: node contents with result flags, and edges
with their dependencies. -/
structure QueryGraph where
  nodes : List (Node × Bool)
  edges : List (GraphEdge × QueryGraphDependency)

def QueryGraph.shape (g : QueryGraph) : GraphShape :=
  { nodeCount := g.nodes.length
    edges := g.edges.map (·.1)
    resultFlags := g.nodes.map (·.2) }

def QueryGraph.initState (g : QueryGraph) : GraphState :=
  { nodeContents := g.nodes.map (fun p => some p.1)
    visited := g.nodes.map (fun _ => false)
    edgeContents := g.edges.map (fun p => some p.2) }

/-! ## `transform_node` and the dependency-application closure
(`expressionista.rs` lines 337–477) -/

/-- `QueryGraphDependency` variants that carry a transformer
(the patterns kept by `collect_parent_transformers`). -/
def QueryGraphDependency.isTransformer : QueryGraphDependency → Bool
  | .dataDependency _ _ => true
  | .projectedDataDependency _ _ _ => true
  | .projectedDataSinkDependency _ _ _ => true
  | _ => false

/-- `collect_parent_transformers`: pluck every parent edge; keep the
dependencies that perform a node transformation, paired with the parent
binding name (`graph.edge_source(&edge).id()`). -/
def collectParentTransformers (G : GraphShape) (parentEdges : List Nat)
    (st : GraphState) : List (String × QueryGraphDependency) × GraphState :=
  match parentEdges with
  | [] => ([], st)
  | e :: rest =>
    let plucked := pluckEdge st e
    let tail := collectParentTransformers G rest plucked.2
    match plucked.1 with
    | some dep =>
      if dep.isTransformer then
        ((toString (edgeSource G e), dep) :: tail.1, tail.2)
      else tail
    | none => tail

/-- `expectation.map(|expect| expect.check(binding)).transpose()`. -/
def checkExpectation (e : Option Expectation) (binding : ExpressionResult) :
    Except InterpreterError Unit :=
  match e with
  | none => .ok ()
  | some expect => expect binding

/-- Write a row into the single-row input field of the child node
(the `node_input_field` machinery resolves the designated field; only
query nodes carry the modelled input fields). -/
def Node.setSingleRow (n : Node) (row : SelectionResult) : Node :=
  match n with
  | .query q => .query { q with singleRow := row }
  | other => other

def Node.setRowList (n : Node) (rows : List SelectionResult) : Node :=
  match n with
  | .query q => .query { q with rowList := rows }
  | other => other

def Node.setFilter (n : Node) (f : RowFilter) : Node :=
  match n with
  | .query q => .query { q with filterField := f }
  | other => other

def Node.mapWriteArgs (n : Node) (args : List WriteArg) : Node :=
  match n with
  | .query q => .query { q with writeArgs := args }
  | other => other

def Node.getWriteArgs (n : Node) : List WriteArg :=
  match n with
  | .query q => q.writeArgs
  | _ => []

/-- The `RowSink` dispatch of `transform_node` (lines 388–428).
`Vec::pop` takes the LAST element; an empty selection list panics through
`expect("parent selection should be present after validation")`. -/
def applySink (consumer : RowSink) (parentSelections : List SelectionResult)
    (node : Node) : RunResult Node :=
  match consumer with
  | .single =>
    match parentSelections.getLast? with
    | none => .error (.panicked "parent selection should be present after validation")
    | some row => .ok (node.setSingleRow row)
  | .all => .ok (node.setRowList parentSelections)
  | .atMostOne => .ok (node.setRowList (parentSelections.take 1))
  | .exactlyOne =>
    match parentSelections.getLast? with
    | none => .error (.panicked "parent selection should be present after validation")
    | some row => .ok (node.setRowList [row])
  | .exactlyOneFilter =>
    match parentSelections.getLast? with
    | none => .error (.panicked "parent selection should be present after validation")
    | some row => .ok (node.setFilter row.filter)
  | .exactlyOneWriteArgs selection =>
    match parentSelections.getLast? with
    | none => .error (.panicked "parent selection should be present after validation")
    | some row =>
      let model := node.queryModel
      match (node.getWriteArgs.mapM fun arg =>
        (selection.assimilate row).map fun assimilated =>
          let arg := arg.inject assimilated
          match model with
          | some m => arg.updateDatetimes m
          | none => arg) with
      | .error e => .error (.interp e)
      | .ok args => .ok (node.mapWriteArgs args)
  | .discard => .ok node

/-- The `res.map_err(...)` wrapping at lines 445–450: wrap returned errors
in `InterpretationError("Error for binding '<name>'", cause)`.  A panic
unwinds past `map_err` and is left untouched. -/
def wrapBindingErr (parentBindingName : String) (r : RunResult Node) :
    RunResult Node :=
  match r with
  | .error (.interp e) =>
    .error (.interp (.interpretationError
      ("Error for binding \x27" ++ parentBindingName ++ "\x27") (some e)))
  | other => other

/-- The `try_fold` closure of `transform_node` (lines 357–451): apply each
collected dependency in order to the node, looking the parent binding up in
the environment.  The expectation check in the `DataDependency` arm uses
`?`, which returns from the enclosing fold closure and therefore bypasses
the `map_err` wrapping applied to the other arms. -/
def applyDeps : List (String × QueryGraphDependency) → Node → Env → RunResult Node
  | [], node, _ => .ok node
  | (parentBindingName, dependency) :: rest, node, env =>
    match env.get parentBindingName with
    | none => .error (.interp (.envVarNotFound
        ("Expected parent binding \x27" ++ parentBindingName ++ "\x27 to be present.")))
    | some binding =>
      let step : RunResult Node :=
        match dependency with
        | .projectedDataDependency selection f expectation =>
          wrapBindingErr parentBindingName
            (match checkExpectation expectation binding with
             | .error e => .error (.interp e)
             | .ok _ =>
               match binding.asSelectionResults selection with
               | .error e => .error (.interp e)
               | .ok parentSelections =>
                 match f node parentSelections with
                 | .error e => .error (.interp e)
                 | .ok n => .ok n)
        | .projectedDataSinkDependency selection consumer expectation =>
          wrapBindingErr parentBindingName
            (match checkExpectation expectation binding with
             | .error e => .error (.interp e)
             | .ok _ =>
               match binding.asSelectionResults selection with
               | .error e => .error (.interp e)
               | .ok parentSelections => applySink consumer parentSelections node)
        | .dataDependency consumer expectation =>
          (match checkExpectation expectation binding with
           | .error e => .error (.interp e)
           | .ok _ => match consumer with | .discard => .ok node)
        | _ => .error (.panicked "unreachable")
      match step with
      | .error e => .error e
      | .ok node' => applyDeps rest node' env

/-- `transform_node` (lines 337–458): with no transformer-carrying parent
edge, build the expression directly through `into_expr`; otherwise emit a
`Func` that folds the dependencies over the node at interpretation time and
then invokes `into_expr` on the final node. -/
def transformNode (G : GraphShape) (parentEdges : List Nat) (node : Node)
    (intoExpr : Node → RunResult Expression) (st : GraphState) :
    RunResult (Expression × GraphState) :=
  if parentEdges.isEmpty then (intoExpr node).map (fun e => (e, st))
  else
    let collected := collectParentTransformers G parentEdges st
    let parentIdDeps := collected.1
    let st := collected.2
    if parentIdDeps.isEmpty then (intoExpr node).map (fun e => (e, st))
    else
      .ok (.func (fun env =>
        FuncResult.ofExcept ((applyDeps parentIdDeps node env).bind intoExpr)), st)

/-! ## Set difference for computation nodes -/

/-- Worker for `dedupKeepFirst`: drop elements already seen. -/
def dedupAux [DecidableEq α] (seen : List α) : List α → List α
  | [] => []
  | x :: xs =>
    if seen.contains x then dedupAux seen xs
    else x :: dedupAux (seen ++ [x]) xs

/-- Keep the first occurrence of each element (`HashSet` insertion keeps
the existing entry on duplicates). -/
def dedupKeepFirst [DecidableEq α] (l : List α) : List α := dedupAux [] l

/-- `HashSet` difference `l \ r` as used by the computation nodes;
Rust hash-set iteration order is unspecified, modelled as first-insertion
order (results are compared as sets where the order matters). -/
def hashSetDiff [DecidableEq α] (l r : List α) : List α :=
  (dedupKeepFirst l).filter (fun x => !(r.contains x))

/-! ## The Expressionista translation
(`expressionista.rs` lines 20–333, 479–539).  The Rust functions recurse
along the (acyclic) graph; the embedding makes the recursion depth explicit
with a fuel parameter, decremented on every call.  Exhausted fuel is
reported through the panic channel and cannot occur on a DAG when the fuel
exceeds the total number of recursive calls. -/

/-- Helper accumulator struct (`IfNodeAcc`). -/
structure IfNodeAcc where
  thenPair : Option (Nat × Nat)
  elsePair : Option (Nat × Nat)
  other : List (Nat × Nat)

/-- `exprs.back_mut()` push of `Get { binding_name }` in `fold_result_scopes`
(lines 508–515): append a `Get` of the last binding's name to the body of
the trailing `Let`. -/
def pushGetOnLast (exprs : List Expression) : RunResult (List Expression) :=
  match exprs.getLast? with
  | some (.letIn bs es) =>
    match bs.getLast? with
    | some b => .ok (exprs.dropLast ++ [.letIn bs (es ++ [.get b.1])])
    | none => .error (.panicked "Expected let binding to have at least one expr.")
  | _ => .ok exprs

/-- The folding tail of `fold_result_scopes` (lines 496–538), after the
bindings have been built: with exactly one global result node, wrap each
binding in its own `Let`, append a final `Get` to the trailing `Let`, and
fold the rest into the first `Let`'s body; otherwise one `Let` over all
bindings whose body is a single `GetFirstNonEmpty`. -/
def foldBindings (bindings : List Binding) (resultNodeCount : Nat) :
    RunResult Expression :=
  let resultBindingNames := bindings.map (·.1)
  if resultNodeCount == 1 then
    match pushGetOnLast (bindings.map fun binding => Expression.letIn [binding] []) with
    | .error e => .error e
    | .ok exprs =>
      match exprs with
      | [] => .error (.panicked "called Option::unwrap on a None value")
      | first :: restExprs =>
        .ok (restExprs.foldl (fun acc next =>
          match acc with
          | .letIn bs es => .letIn bs (es ++ [next])
          | other => other) first)
  else
    .ok (.letIn bindings [.getFirstNonEmpty resultBindingNames])

mutual

/-- `build_expression` (lines 32–46): dispatch on the node content;
missing content is a panic. -/
def buildExpression (G : GraphShape) (fuel : Nat) (n : Nat)
    (parentEdges : List Nat) (st : GraphState) :
    RunResult (Expression × GraphState) :=
  match fuel with
  | 0 => .error (.panicked "fuel exhausted")
  | fuel+1 =>
    match nodeContentAt st n with
    | none => .error (.panicked ("Node content " ++ toString n ++ " was empty"))
    | some (.query _) => buildQueryExpression G fuel n parentEdges st
    | some (.flow _) => buildFlowExpression G fuel n parentEdges st
    | some (.computation _) => buildComputationExpression G fuel n parentEdges st
    | some .empty => buildEmptyExpression G fuel n parentEdges st
termination_by structural fuel

/-- `build_query_expression` (lines 48–91). -/
def buildQueryExpression (G : GraphShape) (fuel : Nat) (n : Nat)
    (parentEdges : List Nat) (st : GraphState) :
    RunResult (Expression × GraphState) :=
  match fuel with
  | 0 => .error (.panicked "fuel exhausted")
  | fuel+1 =>
    let st := markVisited st n
    let directChildren := directChildPairs G st n
    match processChildren G fuel directChildren st with
    | .error e => .error e
    | .ok (childExpressions, st) =>
      let isRes := isResultNode G n
      let nodeId := toString n
      match pluckNode st n with
      | .error e => .error e
      | .ok (node, st) =>
        let intoExpr : Node → RunResult Expression := fun node =>
          match node with
          | .query q => .ok (.query q)
          | _ => .error (.interp (.generic "Only query nodes implement Into<Query>"))
        match transformNode G parentEdges node intoExpr st with
        | .error e => .error e
        | .ok (expr, st) =>
          if childExpressions.isEmpty then .ok (expr, st)
          else
            let nodeBindingName := nodeId
            let body :=
              if isRes then childExpressions ++ [Expression.get nodeBindingName]
              else childExpressions
            .ok (.letIn [(nodeBindingName, expr)] body, st)
termination_by structural fuel

/-- `process_children` (lines 93–136): split result subgraphs out (removing
the highest positions first), build the non-result children in order, then
fold the result scopes into one trailing expression. -/
def processChildren (G : GraphShape) (fuel : Nat) (childPairs : List (Nat × Nat))
    (st : GraphState) : RunResult (List Expression × GraphState) :=
  match fuel with
  | 0 => .error (.panicked "fuel exhausted")
  | fuel+1 =>
    let resultPositions := ((List.range childPairs.length).filter fun ix =>
      match childPairs.get? ix with
      | some pair => subgraphContainsResult G pair.2
      | none => false).reverse
    let split := resultPositions.foldl
      (fun (acc : List (Nat × Nat) × List (Nat × Nat)) pos =>
        match acc.2.get? pos with
        | some pair => (acc.1 ++ [pair], acc.2.eraseIdx pos)
        | none => acc)
      ([], childPairs)
    let resultSubgraphs := split.1
    let remaining := split.2
    match buildExprList G fuel remaining st with
    | .error e => .error e
    | .ok (expressions, st) =>
      if resultSubgraphs.isEmpty then .ok (expressions, st)
      else
        match foldResultScopes G fuel resultSubgraphs st with
        | .error e => .error e
        | .ok (resultExp, st) => .ok (expressions ++ [resultExp], st)
termination_by structural fuel

/-- The child-expression loop shared by `process_children` (lines 121–127),
`build_empty_expression` (146–149) and `build_computation_expression`
(165–168): build each child with its incoming edges as parent edges. -/
def buildExprList (G : GraphShape) (fuel : Nat) (pairs : List (Nat × Nat))
    (st : GraphState) : RunResult (List Expression × GraphState) :=
  match fuel with
  | 0 => .error (.panicked "fuel exhausted")
  | fuel+1 =>
    match pairs with
    | [] => .ok ([], st)
    | (_, childNode) :: rest =>
      match buildExpression G fuel childNode (incomingEdges G childNode) st with
      | .error e => .error e
      | .ok (e, st) =>
        match buildExprList G fuel rest st with
        | .error e2 => .error e2
        | .ok (es, st) => .ok (e :: es, st)
termination_by structural fuel

/-- `build_empty_expression` (lines 138–153): children in sequence, still
passed through the transformer wrapper with `Node::Empty`. -/
def buildEmptyExpression (G : GraphShape) (fuel : Nat) (n : Nat)
    (parentEdges : List Nat) (st : GraphState) :
    RunResult (Expression × GraphState) :=
  match fuel with
  | 0 => .error (.panicked "fuel exhausted")
  | fuel+1 =>
    let st := markVisited st n
    let childPairs := directChildPairs G st n
    match buildExprList G fuel childPairs st with
    | .error e => .error e
    | .ok (exprs, st) =>
      let intoExpr : Node → RunResult Expression := fun _node =>
        .ok (.sequence exprs)
      transformNode G parentEdges Node.empty intoExpr st
termination_by structural fuel

/-- `build_computation_expression` (lines 155–216): the base expression is
a `Func` computing the hash-set difference at interpretation time. -/
def buildComputationExpression (G : GraphShape) (fuel : Nat) (n : Nat)
    (parentEdges : List Nat) (st : GraphState) :
    RunResult (Expression × GraphState) :=
  match fuel with
  | 0 => .error (.panicked "fuel exhausted")
  | fuel+1 =>
    let st := markVisited st n
    let nodeId := toString n
    let childPairs := directChildPairs G st n
    match buildExprList G fuel childPairs st with
    | .error e => .error e
    | .ok (exprs, st) =>
      match pluckNode st n with
      | .error e => .error e
      | .ok (node, st) =>
        let intoExpr : Node → RunResult Expression := fun node =>
          .ok (.func fun _ =>
            match node with
            | .computation (.diffLeftToRight d) =>
              .ok (.ret (.fixedResult (hashSetDiff d.left d.right)))
            | .computation (.diffRightToLeft d) =>
              .ok (.ret (.fixedResult (hashSetDiff d.right d.left)))
            | _ => .error (.panicked "unreachable"))
        match transformNode G parentEdges node intoExpr st with
        | .error e => .error e
        | .ok (expr, st) =>
          if exprs.isEmpty then .ok (expr, st)
          else
            let nodeBindingName := nodeId
            .ok (.letIn [(nodeBindingName, expr)] exprs, st)
termination_by structural fuel

/-- `build_flow_expression` (lines 218–230). -/
def buildFlowExpression (G : GraphShape) (fuel : Nat) (n : Nat)
    (parentEdges : List Nat) (st : GraphState) :
    RunResult (Expression × GraphState) :=
  match fuel with
  | 0 => .error (.panicked "fuel exhausted")
  | fuel+1 =>
    let st := markVisited st n
    match nodeContentAt st n with
    | some (.flow (.ifRule _ _)) => translateIfNode G fuel n parentEdges st
    | some (.flow (.ret _)) => translateReturnNode G fuel n parentEdges st
    | _ => .error (.panicked "unreachable")
termination_by structural fuel

/-- `translate_if_node` (lines 232–296): partition the child edges into one
`Then`, at most one `Else`, and other dependencies; the missing-`Then` case
is an `expect` panic. -/
def translateIfNode (G : GraphShape) (fuel : Nat) (n : Nat)
    (parentEdges : List Nat) (st : GraphState) :
    RunResult (Expression × GraphState) :=
  match fuel with
  | 0 => .error (.panicked "fuel exhausted")
  | fuel+1 =>
    let childPairs := directChildPairs G st n
    let ifNodeInfo := childPairs.foldl
      (fun (acc : IfNodeAcc) pair =>
        match edgeContentAt st pair.1 with
        | some .thenBranch => { acc with thenPair := some pair }
        | some .elseBranch => { acc with elsePair := some pair }
        | _ => { acc with other := acc.other ++ [pair] })
      ⟨none, none, []⟩
    match ifNodeInfo.thenPair with
    | none => .error (.panicked "Expected if-node to always have a then edge to another node.")
    | some thenPair =>
      match buildExpression G fuel thenPair.2 (incomingEdges G thenPair.2) st with
      | .error e => .error e
      | .ok (thenExpr, st) =>
        match ((match ifNodeInfo.elsePair with
               | none => .ok ([], st)
               | some elsePair =>
                 match buildExpression G fuel elsePair.2 (incomingEdges G elsePair.2) st with
                 | .error e => .error e
                 | .ok (e, st) => .ok ([e], st)) :
                RunResult (List Expression × GraphState)) with
        | .error e => .error e
        | .ok (elseExpr, st) =>
          match processChildren G fuel ifNodeInfo.other st with
          | .error e => .error e
          | .ok (childExpressions, st) =>
            let nodeId := toString n
            match pluckNode st n with
            | .error e => .error e
            | .ok (node, st) =>
              let intoExpr : Node → RunResult Expression := fun node =>
                match node with
                | .flow (.ifRule rule data) =>
                  let ifExpr := Expression.ifCond
                    (fun _ => rule (.fixedResult data)) [thenExpr] elseExpr
                  if !childExpressions.isEmpty then
                    .ok (.letIn [(nodeId, ifExpr)] childExpressions)
                  else
                    .ok ifExpr
                | .flow (.ret _) => .error (.panicked "unreachable")
                | _ => .error (.interp (.generic "Only flow nodes implement Into<Flow>"))
              transformNode G parentEdges node intoExpr st
termination_by structural fuel

/-- `translate_return_node` (lines 298–333). -/
def translateReturnNode (G : GraphShape) (fuel : Nat) (n : Nat)
    (parentEdges : List Nat) (st : GraphState) :
    RunResult (Expression × GraphState) :=
  match fuel with
  | 0 => .error (.panicked "fuel exhausted")
  | fuel+1 =>
    let directChildren := directChildPairs G st n
    match processChildren G fuel directChildren st with
    | .error e => .error e
    | .ok (childExpressions, st) =>
      let intoExpr : Node → RunResult Expression := fun node =>
        match node with
        | .flow (.ret result) => .ok (.ret (.fixedResult result))
        | .flow _ => .error (.panicked "unreachable")
        | _ => .error (.interp (.generic "Only flow nodes implement Into<Flow>"))
      let nodeBindingName := toString n
      match pluckNode st n with
      | .error e => .error e
      | .ok (node, st) =>
        match transformNode G parentEdges node intoExpr st with
        | .error e => .error e
        | .ok (expr, st) =>
          if childExpressions.isEmpty then .ok (expr, st)
          else .ok (.letIn [(nodeBindingName, expr)] childExpressions, st)
termination_by structural fuel

/-- `fold_result_scopes` (lines 479–539): build one binding per result
subgraph (name = node id), then fold per `foldBindings`. -/
def foldResultScopes (G : GraphShape) (fuel : Nat)
    (resultSubgraphs : List (Nat × Nat)) (st : GraphState) :
    RunResult (Expression × GraphState) :=
  match fuel with
  | 0 => .error (.panicked "fuel exhausted")
  | fuel+1 =>
    match buildBindingList G fuel resultSubgraphs st with
    | .error e => .error e
    | .ok (bindings, st) =>
      match foldBindings bindings (resultNodes G).length with
      | .error e => .error e
      | .ok expr => .ok (expr, st)
termination_by structural fuel

/-- The binding loop of `fold_result_scopes` (lines 485–494). -/
def buildBindingList (G : GraphShape) (fuel : Nat) (pairs : List (Nat × Nat))
    (st : GraphState) : RunResult (List Binding × GraphState) :=
  match fuel with
  | 0 => .error (.panicked "fuel exhausted")
  | fuel+1 =>
    match pairs with
    | [] => .ok ([], st)
    | (_, node) :: rest =>
      let name := toString node
      match buildExpression G fuel node (incomingEdges G node) st with
      | .error e => .error e
      | .ok (expr, st) =>
        match buildBindingList G fuel rest st with
        | .error e2 => .error e2
        | .ok (bs, st) => .ok ((name, expr) :: bs, st)



termination_by structural fuel
end

/-- `Expressionista::translate` (lines 21–30): build each root node with no
parent edges and wrap the results in a `Sequence`. -/
def translateRoots (G : GraphShape) (fuel : Nat) (roots : List Nat)
    (st : GraphState) : RunResult (List Expression × GraphState) :=
  match roots with
  | [] => .ok ([], st)
  | r :: rest =>
    match buildExpression G fuel r [] st with
    | .error e => .error e
    | .ok (e, st) =>
      match translateRoots G fuel rest st with
      | .error e2 => .error e2
      | .ok (es, st) => .ok (e :: es, st)

/-- Entry point: translate a whole query graph with the given fuel. -/
def translateGraph (fuel : Nat) (g : QueryGraph) : RunResult Expression :=
  match translateRoots g.shape fuel (rootNodes g.shape) g.initState with
  | .error e => .error e
  | .ok (seq, _) => .ok (.sequence seq)

/-! ## `build_create_record`
(`sql-query-builder/src/lib.rs` lines 215–268) -/

/-- The slice of a scalar field the insert policy consults. -/
structure ScalarField where
  name : String
  dbName : String
  prismaType : String
  isAutoincrement : Bool
deriving DecidableEq, Repr

/-- `WriteArgs` for the builder: a map from datasource field name to value
(`HashMap` modelled as an association list; `insert` replaces). -/
abbrev WriteArgsMap := List (String × PrismaValue)

/-- `WriteArgs::insert`: replace the value under the key, or add it. -/
def insertWriteArg (args : WriteArgsMap) (key : String) (v : PrismaValue) :
    WriteArgsMap :=
  if args.any (·.1 == key) then
    args.map fun p => if p.1 == key then (key, v) else p
  else args ++ [(key, v)]

/-- A built database query (`query_builder::DbQuery`), reduced to its
parameter list (the SQL text is produced by the dialect visitor, outside
this embedding). -/
inductive DbQuery where
  | templateSql (params : List PrismaValue)
  | rawSql (sql : String) (params : List PrismaValue)
deriving DecidableEq, Repr

def DbQuery.params : DbQuery → List PrismaValue
  | .templateSql ps => ps
  | .rawSql _ ps => ps

/-- `CreateRecordDefaultsQuery`: the companion SELECT materializing MySQL
default values, with its field/placeholder pairs. -/
structure CreateRecordDefaultsQuery where
  query : DbQuery
  fieldPlaceholders : List (ScalarField × PrismaValue)
deriving DecidableEq, Repr

/-- `query_builder::CreateRecord`. -/
structure CreateRecord where
  selectDefaults : Option CreateRecordDefaultsQuery
  insertQuery : DbQuery
  lastInsertIdField : Option ScalarField
  mergeValues : List (String × PrismaValue)
deriving DecidableEq, Repr

/-- The slice of `Model` consulted by `build_create_record`: the scalar
fields of `shard_aware_primary_identifier()`. -/
structure ModelW where
  primaryIdentifier : List ScalarField
deriving Repr

/-- Modelled from the spec: `WriteArgs::as_selection_result` returns the
primary-identifier pairs the caller already supplied (all identifier
fields present), or nothing. -/
def argsAsSelectionResult (args : WriteArgsMap) (idSelection : List ScalarField) :
    Option (List (String × PrismaValue)) :=
  if idSelection.all (fun f => (args.lookup f.dbName).isSome) then
    some (idSelection.filterMap fun f =>
      (args.lookup f.dbName).map fun v => (f.dbName, v))
  else none

/-- Modelled from the spec: `write::create_record` renders the insert; its
parameters are the argument values in order. -/
def createRecordQuery (args : WriteArgsMap) : DbQuery :=
  .templateSql (args.map (·.2))

/-- `build_create_record` (lines 215–268).  `mysqlWriteDefaults` stands for
the fields yielded by `write::defaults_for_mysql_write_args(&id_selection,
&args)` (not part of the excerpt): the primary-identifier fields whose
default-value expressions must be materialized for this write.  Their
companion SELECT is modelled as a parameterless template. -/
def buildCreateRecord (ctx : Context) (m : ModelW) (args : WriteArgsMap)
    (mysqlWriteDefaults : List ScalarField) : CreateRecord :=
  let idSelection := m.primaryIdentifier
  let state :
      Option CreateRecordDefaultsQuery × Option ScalarField ×
        List (String × PrismaValue) × WriteArgsMap :=
    if ctx.sqlFamily == .mysql then
      let fieldPlaceholders := mysqlWriteDefaults.map fun field =>
        (field, PrismaValue.placeholder field.name field.prismaType)
      let argsAndDefaults :
          WriteArgsMap × Option CreateRecordDefaultsQuery :=
        if !fieldPlaceholders.isEmpty then
          (fieldPlaceholders.foldl
            (fun a fp => insertWriteArg a fp.1.dbName fp.2) args,
           some { query := .templateSql [], fieldPlaceholders := fieldPlaceholders })
        else (args, none)
      let args := argsAndDefaults.1
      let selectDefaults := argsAndDefaults.2
      let lastInsertIdField := idSelection.find? (·.isAutoincrement)
      let mergeValues := (argsAsSelectionResult args idSelection).getD []
      (selectDefaults, lastInsertIdField, mergeValues, args)
    else (none, none, [], args)
  { selectDefaults := state.1
    insertQuery := createRecordQuery state.2.2.2
    lastInsertIdField := state.2.1
    mergeValues := state.2.2.1 }

/-! ## Expression shapes
Closure-free skeletons of expressions, used to state equalities that do not
depend on the embedded function values. -/

/-- The skeleton of an `Expression` with closures erased. -/
inductive ExprShape where
  | sequence (seq : List ExprShape)
  | letIn (bindings : List (String × ExprShape)) (expressions : List ExprShape)
  | get (bindingName : String)
  | getFirstNonEmpty (bindingNames : List String)
  | query
  | func
  | ifCond (thenList : List ExprShape) (elseList : List ExprShape)
  | ret
deriving Repr

mutual
/-- Erase closures and payloads, keeping the tree structure and names. -/
def Expression.shape : Expression → ExprShape
  | .sequence seq => .sequence (shapeList seq)
  | .letIn bs es => .letIn (shapeBindings bs) (shapeList es)
  | .get n => .get n
  | .getFirstNonEmpty ns => .getFirstNonEmpty ns
  | .query _ => .query
  | .func _ => .func
  | .ifCond _ t e => .ifCond (shapeList t) (shapeList e)
  | .ret _ => .ret

/-- `Expression.shape` mapped over a list. -/
def shapeList : List Expression → List ExprShape
  | [] => []
  | e :: es => e.shape :: shapeList es

/-- `Expression.shape` mapped over bindings. -/
def shapeBindings : List (String × Expression) → List (String × ExprShape)
  | [] => []
  | (n, e) :: bs => (n, e.shape) :: shapeBindings bs
end

/-! # Theorems

## C1: parameter chunking -/

theorem listChunksGo_nil {α} (k fuel : Nat) : listChunksGo k fuel ([] : List α) = [] := by
  cases fuel <;> rfl

theorem listChunksGo_fuel {α} (k : Nat) (hk : k ≠ 0) :
    ∀ (fuel fuel' : Nat) (l : List α), l.length ≤ fuel → l.length ≤ fuel' →
      listChunksGo k fuel l = listChunksGo k fuel' l := by
  intro fuel
  induction fuel with
  | zero =>
    intro fuel' l h _
    have : l = [] := List.eq_nil_of_length_eq_zero (Nat.le_zero.mp h)
    subst this
    simp [listChunksGo_nil]
  | succ fuel ih =>
    intro fuel' l h h'
    cases l with
    | nil => simp [listChunksGo_nil]
    | cons x xs =>
      cases fuel' with
      | zero => simp at h'
      | succ fuel' =>
        rw [listChunksGo, listChunksGo]
        congr 1
        apply ih
        · simp only [List.length_drop, List.length_cons]
          simp only [List.length_cons] at h
          omega
        · simp only [List.length_drop, List.length_cons]
          simp only [List.length_cons] at h'
          omega

theorem listChunks_cons {α} (k : Nat) (hk : k ≠ 0) (x : α) (xs : List α) :
    listChunks k (x :: xs) = (x :: xs).take k :: listChunks k ((x :: xs).drop k) := by
  unfold listChunks
  rw [show (x :: xs).length = xs.length + 1 from rfl, listChunksGo]
  congr 1
  apply listChunksGo_fuel k hk
  · simp only [List.length_drop, List.length_cons]; omega
  · exact Nat.le_refl _

theorem listChunks_flatten {α} (k : Nat) (hk : k ≠ 0) (l : List α) :
    (listChunks k l).flatten = l := by
  have go : ∀ (fuel : Nat) (l : List α), l.length ≤ fuel →
      (listChunksGo k fuel l).flatten = l := by
    intro fuel
    induction fuel with
    | zero =>
      intro l h
      have : l = [] := List.eq_nil_of_length_eq_zero (Nat.le_zero.mp h)
      subst this; simp [listChunksGo_nil]
    | succ fuel ih =>
      intro l h
      cases l with
      | nil => simp [listChunksGo_nil]
      | cons x xs =>
        rw [listChunksGo]
        rw [List.flatten_cons, ih]
        · exact List.take_append_drop k (x :: xs)
        · simp only [List.length_drop, List.length_cons]
          simp only [List.length_cons] at h
          omega
  exact go l.length l (Nat.le_refl _)

theorem listChunks_length {α} (k : Nat) (hk : k ≠ 0) (l : List α) :
    (listChunks k l).length = (l.length + k - 1) / k := by
  have go : ∀ (fuel : Nat) (l : List α), l.length ≤ fuel →
      (listChunksGo k fuel l).length = (l.length + k - 1) / k := by
    intro fuel
    induction fuel with
    | zero =>
      intro l h
      have : l = [] := List.eq_nil_of_length_eq_zero (Nat.le_zero.mp h)
      subst this
      rw [listChunksGo_nil]
      simp only [List.length_nil]
      exact (Nat.div_eq_of_lt (by omega)).symm
    | succ fuel ih =>
      intro l h
      cases l with
      | nil =>
        rw [listChunksGo_nil]
        simp only [List.length_nil]
        exact (Nat.div_eq_of_lt (by omega)).symm
      | cons x xs =>
        rw [listChunksGo]
        rw [List.length_cons, ih ((x :: xs).drop k)
          (by simp only [List.length_drop, List.length_cons]
              simp only [List.length_cons] at h; omega)]
        simp only [List.length_drop, List.length_cons]
        rcases Nat.lt_or_ge (xs.length + 1) k with hlt | hge
        · have h1 : xs.length + 1 - k = 0 := by omega
          rw [h1, Nat.div_eq_of_lt (show 0 + k - 1 < k by omega)]
          have h3 : (xs.length + 1 + k - 1) / k = 1 := by
            apply Nat.div_eq_of_lt_le <;> omega
          omega
        · have h1 : xs.length + 1 - k + k - 1 = xs.length := by omega
          have h2 : xs.length + 1 + k - 1 = xs.length + k := by omega
          rw [h1, h2, Nat.add_div_right _ (Nat.pos_of_ne_zero hk)]
  unfold listChunks
  exact go l.length l (Nat.le_refl _)

theorem listChunks_chunk_length_le {α} (k : Nat) (l : List α) :
    ∀ c ∈ listChunks k l, c.length ≤ k := by
  have go : ∀ (fuel : Nat) (l : List α), ∀ c ∈ listChunksGo k fuel l, c.length ≤ k := by
    intro fuel
    induction fuel with
    | zero =>
      intro l c hc
      cases l with
      | nil => simp [listChunksGo_nil] at hc
      | cons x xs => simp [listChunksGo] at hc
    | succ fuel ih =>
      intro l c hc
      cases l with
      | nil => simp [listChunksGo_nil] at hc
      | cons x xs =>
        rw [listChunksGo] at hc
        rcases List.mem_cons.mp hc with rfl | hc
        · simp only [List.length_take]
          omega
        · exact ih _ c hc
  exact go l.length l

theorem listChunks_mem_of_mem {α} (k : Nat) (hk : k ≠ 0) (l : List α)
    (c : List α) (hc : c ∈ listChunks k l) (r : α) (hr : r ∈ c) : r ∈ l := by
  rw [← listChunks_flatten k hk l]
  exact List.mem_flatten.mpr ⟨c, hc, hr⟩

theorem inConditions_plain (columns : List String) (chunk : List SelectionResult)
    (ctx : Context) (h : ∀ r ∈ chunk, r.asPlaceholders = none) :
    inConditions columns chunk ctx =
      .ok (.inValues columns (chunk.map SelectionResult.dbValues)) := by
  match chunk with
  | [] => rfl
  | [res] =>
    have := h res (by simp)
    simp [inConditions, this]
  | a :: b :: rest => rfl

theorem chunkedConditions_plain (columns : List String)
    (records : List SelectionResult) (ctx : Context)
    (hplain : ∀ r ∈ records, r.asPlaceholders = none) :
    chunkedConditions columns records ctx (fun t => t) =
      .ok ((listChunks PARAMETER_LIMIT records).map
        (fun c => ConditionTree.inValues columns (c.map SelectionResult.dbValues))) := by
  have hmem : ∀ c ∈ listChunks PARAMETER_LIMIT records, ∀ r ∈ c,
      r.asPlaceholders = none := by
    intro c hc r hr
    exact hplain r (listChunks_mem_of_mem PARAMETER_LIMIT (by decide) records c hc r hr)
  unfold chunkedConditions
  generalize hcs : listChunks PARAMETER_LIMIT records = cs at hmem ⊢
  clear hcs
  induction cs with
  | nil => rfl
  | cons c cs ih =>
    rw [List.mapM_cons]
    rw [inConditions_plain columns c ctx (hmem c (by simp))]
    have ihh := ih (fun c hc r hr => hmem c (List.mem_cons_of_mem _ hc) r hr)
    simp only [List.map_cons]
    rw [show ((Except.ok (ConditionTree.inValues columns (c.map SelectionResult.dbValues)) :
      RunResult ConditionTree).map (fun t => t)) = Except.ok
        (ConditionTree.inValues columns (c.map SelectionResult.dbValues)) from rfl]
    simp only [bind, Except.bind, ihh]
    rfl

/-- C1 (amended): `chunked_conditions` splits the selection results into
chunks of `PARAMETER_LIMIT = 2000` rows regardless of the context's
`max_bind_values`, emitting one query per chunk: `⌈n / 2000⌉` queries in
total, whose chunks concatenate back to the original list, each carrying at
most `PARAMETER_LIMIT * |columns|` parameters (so at most `PARAMETER_LIMIT`
for a one-column IN-filter). -/
theorem C1_chunked_conditions (columns : List String)
    (records : List SelectionResult) (ctx : Context)
    (hplain : ∀ r ∈ records, r.asPlaceholders = none)
    (hwidth : ∀ r ∈ records, r.pairs.length = columns.length) :
    ∃ ts, chunkedConditions columns records ctx (fun t => t) = .ok ts ∧
      ts.length = (records.length + PARAMETER_LIMIT - 1) / PARAMETER_LIMIT ∧
      (∀ t ∈ ts, t.paramCount ≤ PARAMETER_LIMIT * columns.length) ∧
      (listChunks PARAMETER_LIMIT records).flatten = records := by
  refine ⟨_, chunkedConditions_plain columns records ctx hplain, ?_, ?_, ?_⟩
  · rw [List.length_map, listChunks_length PARAMETER_LIMIT (by decide) records]
  · intro t ht
    rcases List.mem_map.mp ht with ⟨c, hc, rfl⟩
    simp only [ConditionTree.paramCount]
    have hvals : ((c.map SelectionResult.dbValues).map List.length) =
        c.map (fun r => r.pairs.length) := by
      rw [List.map_map]
      apply List.map_congr_left
      intro r _
      simp [SelectionResult.dbValues]
    rw [hvals]
    have hbound : ∀ x ∈ c.map (fun r => r.pairs.length), x ≤ columns.length := by
      intro x hx
      rcases List.mem_map.mp hx with ⟨r, hr, rfl⟩
      exact Nat.le_of_eq (hwidth r
        (listChunks_mem_of_mem PARAMETER_LIMIT (by decide) records c hc r hr))
    calc (c.map (fun r => r.pairs.length)).sum
        ≤ (c.map (fun r => r.pairs.length)).length • columns.length :=
          List.sum_le_card_nsmul _ _ hbound
      _ = c.length * columns.length := by rw [List.length_map, smul_eq_mul]
      _ ≤ PARAMETER_LIMIT * columns.length :=
          Nat.mul_le_mul_right _ (listChunks_chunk_length_le PARAMETER_LIMIT records c hc)
  · exact listChunks_flatten PARAMETER_LIMIT (by decide) records

def c1Row : SelectionResult := ⟨[("id", .int 1)]⟩

def c1Records : List SelectionResult := List.replicate 5000 c1Row

def c1Ctx : Context := ⟨some "public", .postgres, none, some 900, ⟨[]⟩⟩

/-- C1 counterexample: with 5,000 selection results, `max_bind_values = 900`
and a one-column IN-filter, `chunked_conditions` emits 3 queries (not 6),
and the first one carries 2,000 parameters (more than 900): the chunk size
is the constant `PARAMETER_LIMIT`, not `min(PARAMETER_LIMIT,
max_bind_values)`. -/
theorem C1_counterexample :
    ∃ ts, chunkedConditions ["id"] c1Records c1Ctx (fun t => t) = .ok ts ∧
      ts.length = 3 ∧ ¬ts.length = 6 ∧ ∃ t ∈ ts, 900 < t.paramCount := by
  have hplain : ∀ r ∈ c1Records, r.asPlaceholders = none := by
    intro r hr
    rw [List.eq_of_mem_replicate hr]
    rfl
  have hlen : c1Records.length = 5000 := List.length_replicate 5000 c1Row
  refine ⟨_, chunkedConditions_plain ["id"] c1Records c1Ctx hplain, ?_, ?_, ?_⟩
  · rw [List.length_map, listChunks_length PARAMETER_LIMIT (by decide) c1Records, hlen]
    decide
  · rw [List.length_map, listChunks_length PARAMETER_LIMIT (by decide) c1Records, hlen]
    decide
  · have hcons : c1Records = c1Row :: List.replicate 4999 c1Row := rfl
    have hchunks : listChunks PARAMETER_LIMIT c1Records =
        c1Records.take PARAMETER_LIMIT :: listChunks PARAMETER_LIMIT
          (c1Records.drop PARAMETER_LIMIT) := by
      rw [hcons]
      exact listChunks_cons PARAMETER_LIMIT (by decide) c1Row (List.replicate 4999 c1Row)
    refine ⟨ConditionTree.inValues ["id"]
      ((c1Records.take PARAMETER_LIMIT).map SelectionResult.dbValues), ?_, ?_⟩
    · rw [hchunks]
      simp
    · have htake : c1Records.take PARAMETER_LIMIT = List.replicate 2000 c1Row := by
        rw [c1Records, List.take_replicate]
        norm_num [PARAMETER_LIMIT]
      rw [htake]
      simp only [ConditionTree.paramCount, List.map_replicate]
      rw [show (SelectionResult.dbValues c1Row).length = 1 from rfl]
      rw [List.sum_replicate]
      norm_num

/-- C1 witness: the chunking theorem instantiated at a one-row list. -/
theorem C1_chunked_conditions_witness :
    (∀ r ∈ [c1Row], r.asPlaceholders = none) ∧
    (∀ r ∈ [c1Row], r.pairs.length = (["id"] : List String).length) ∧
    (∃ ts, chunkedConditions ["id"] [c1Row] c1Ctx (fun t => t) = .ok ts ∧
      ts.length = ((([c1Row] : List SelectionResult).length + PARAMETER_LIMIT - 1) /
        PARAMETER_LIMIT) ∧
      (∀ t ∈ ts, t.paramCount ≤ PARAMETER_LIMIT * (["id"] : List String).length) ∧
      (listChunks PARAMETER_LIMIT [c1Row]).flatten = [c1Row]) :=
  ⟨by decide, by decide,
   C1_chunked_conditions ["id"] [c1Row] c1Ctx (by decide) (by decide)⟩

/-! ## C3: dynamic schema and table qualification -/

def c3Ctx : Context := ⟨some "default", .postgres, none, none, ⟨[("a", "b")]⟩⟩

def c3Model : ModelRef := ⟨some "public", "users"⟩

/-- C3 counterexample: with a non-empty dynamic schema map that does not
contain the origin, `db_name_with_schema` qualifies the table with the
ORIGIN schema (the `.or(Some(origin))` fallback), not with no prefix and
not with the context's default schema. -/
theorem C3_counterexample :
    dbNameWithSchema c3Model c3Ctx = ⟨some "public", "users"⟩ ∧
    dbNameWithSchema c3Model c3Ctx ≠ ⟨none, "users"⟩ ∧
    dbNameWithSchema c3Model c3Ctx ≠ ⟨c3Ctx.schemaName, "users"⟩ := by
  refine ⟨rfl, ?_, ?_⟩ <;> decide

/-- C3 (amended): `target_schema` returns `Some(origin)` when the map is
empty and `map.get(origin)` otherwise; the builder qualifies the table with
`origin` when the map is empty, with `map[origin]` when present, and falls
back to the ORIGIN schema (not to no prefix / the default schema) when the
non-empty map lacks the origin; without a declared origin schema the
context's default schema is used. -/
theorem C3_dynamic_schema (ctx : Context) (m : ModelRef)
    (origin target : String) :
    (ctx.dynamicSchema.isEmpty = true → ctx.targetSchema origin = some origin) ∧
    (ctx.dynamicSchema.isEmpty = false →
      ctx.targetSchema origin = ctx.dynamicSchema.get origin) ∧
    (m.schemaName = some origin → ctx.dynamicSchema.isEmpty = true →
      dbNameWithSchema m ctx = ⟨some origin, m.dbName⟩) ∧
    (m.schemaName = some origin → ctx.dynamicSchema.get origin = some target →
      ctx.dynamicSchema.isEmpty = false →
      dbNameWithSchema m ctx = ⟨some target, m.dbName⟩) ∧
    (m.schemaName = some origin → ctx.dynamicSchema.isEmpty = false →
      ctx.dynamicSchema.get origin = none →
      dbNameWithSchema m ctx = ⟨some origin, m.dbName⟩) ∧
    (m.schemaName = none →
      (dbNameWithSchema m ctx).schema = ctx.schemaName ∧
      (dbNameWithSchema m ctx).name = m.dbName) := by
  refine ⟨?_, ?_, ?_, ?_, ?_, ?_⟩
  · intro h; simp [Context.targetSchema, h]
  · intro h; simp [Context.targetSchema, h]
  · intro hm h
    simp [dbNameWithSchema, Context.targetSchema, hm, h, Option.orElse]
  · intro hm hget h
    simp [dbNameWithSchema, Context.targetSchema, hm, hget, h, Option.orElse]
  · intro hm h hget
    simp [dbNameWithSchema, Context.targetSchema, hm, hget, h, Option.orElse]
  · intro hm
    cases hs : ctx.schemaName <;>
      simp [dbNameWithSchema, Context.targetSchema, hm, hs, Option.orElse]

def c3CtxEmpty : Context := ⟨some "default", .postgres, none, none, ⟨[]⟩⟩

/-- C3 witness: the amended theorem at concrete inputs, covering the empty
map, the mapped origin, and the missing-origin fallback. -/
theorem C3_dynamic_schema_witness :
    (c3CtxEmpty.targetSchema "public" = some "public") ∧
    (dbNameWithSchema c3Model c3CtxEmpty = ⟨some "public", "users"⟩) ∧
    (dbNameWithSchema c3Model ⟨some "default", .postgres, none, none,
      ⟨[("public", "tenant")]⟩⟩ = ⟨some "tenant", "users"⟩) ∧
    (dbNameWithSchema c3Model c3Ctx = ⟨some "public", "users"⟩) :=
  ⟨(C3_dynamic_schema c3CtxEmpty c3Model "public" "t").1 rfl,
   (C3_dynamic_schema c3CtxEmpty c3Model "public" "t").2.2.1 rfl rfl,
   (C3_dynamic_schema ⟨some "default", .postgres, none, none,
      ⟨[("public", "tenant")]⟩⟩ c3Model "public" "tenant").2.2.2.1 rfl rfl rfl,
   (C3_dynamic_schema c3Ctx c3Model "public" "t").2.2.2.2.1 rfl rfl rfl⟩

/-! ## C9: `build_create_record` MySQL defaults policy -/

theorem mem_insertWriteArg_self (a : WriteArgsMap) (k : String) (v : PrismaValue) :
    (k, v) ∈ insertWriteArg a k v := by
  unfold insertWriteArg
  by_cases h : a.any (·.1 == k)
  · rw [if_pos h]
    rcases List.any_eq_true.mp h with ⟨p, hp, hpk⟩
    refine List.mem_map.mpr ⟨p, hp, ?_⟩
    rw [if_pos hpk]
  · rw [if_neg h]
    exact List.mem_append_right _ (by simp)

theorem mem_insertWriteArg_of_ne (a : WriteArgsMap) (k k' : String)
    (v v' : PrismaValue) (hne : k' ≠ k) (h : (k', v') ∈ a) :
    (k', v') ∈ insertWriteArg a k v := by
  unfold insertWriteArg
  by_cases hany : a.any (·.1 == k)
  · rw [if_pos hany]
    refine List.mem_map.mpr ⟨(k', v'), h, ?_⟩
    rw [if_neg (by simpa using hne)]
  · rw [if_neg hany]
    exact List.mem_append_left _ h

theorem mem_foldl_insertWriteArg_of_ne (k' : String) (v' : PrismaValue) :
    ∀ (kvs : List (String × PrismaValue)) (a : WriteArgsMap),
      (∀ p ∈ kvs, p.1 ≠ k') → (k', v') ∈ a →
      (k', v') ∈ kvs.foldl (fun acc p => insertWriteArg acc p.1 p.2) a := by
  intro kvs
  induction kvs with
  | nil => intro a _ h; exact h
  | cons p rest ih =>
    intro a hk h
    simp only [List.foldl_cons]
    exact ih _ (fun q hq => hk q (List.mem_cons_of_mem _ hq))
      (mem_insertWriteArg_of_ne a p.1 k' p.2 v'
        (fun hh => hk p (by simp) (hh ▸ rfl)) h)

theorem mem_foldl_insertWriteArg :
    ∀ (kvs : List (String × PrismaValue)) (a : WriteArgsMap),
      (kvs.map (·.1)).Nodup →
      ∀ p ∈ kvs, p ∈ kvs.foldl (fun acc q => insertWriteArg acc q.1 q.2) a := by
  intro kvs
  induction kvs with
  | nil => intro a _ p hp; cases hp
  | cons q rest ih =>
    intro a hnd p hp
    simp only [List.map_cons, List.nodup_cons] at hnd
    simp only [List.foldl_cons]
    rcases List.mem_cons.mp hp with rfl | hp
    · exact mem_foldl_insertWriteArg_of_ne p.1 p.2 rest _
        (fun r hr hrk => hnd.1 (hrk ▸ List.mem_map_of_mem (·.1) hr))
        (mem_insertWriteArg_self a p.1 p.2)
    · exact ih _ hnd.2 p hp

/-- C9: `build_create_record` emits `select_defaults = Some` exactly when
the dialect is MySQL and the primary identifier yields at least one
default-value expression for the write args; the extracted defaults are
re-injected into the insert args as named placeholders (appearing among the
insert query's parameters); every non-MySQL dialect gets
`select_defaults = None`, `last_insert_id_field = None` and empty
`merge_values`. -/
theorem C9_build_create_record (ctx : Context) (m : ModelW) (args : WriteArgsMap)
    (defaults : List ScalarField) :
    (¬ctx.sqlFamily = .mysql →
      (buildCreateRecord ctx m args defaults).selectDefaults = none ∧
      (buildCreateRecord ctx m args defaults).lastInsertIdField = none ∧
      (buildCreateRecord ctx m args defaults).mergeValues = []) ∧
    (ctx.sqlFamily = .mysql →
      ((buildCreateRecord ctx m args defaults).selectDefaults.isSome ↔
        ¬defaults = [])) ∧
    (ctx.sqlFamily = .mysql → (defaults.map (·.dbName)).Nodup →
      ∀ f ∈ defaults, PrismaValue.placeholder f.name f.prismaType ∈
        (buildCreateRecord ctx m args defaults).insertQuery.params) := by
  refine ⟨?_, ?_, ?_⟩
  · intro h
    have hb : (ctx.sqlFamily == SqlFamily.mysql) = false := by
      simp only [beq_eq_false_iff_ne, ne_eq]
      exact h
    simp [buildCreateRecord, hb]
  · intro h
    have hb : (ctx.sqlFamily == SqlFamily.mysql) = true := by simp [h]
    by_cases hd : defaults = []
    · subst hd
      simp [buildCreateRecord, hb]
    · have hfpe : (defaults.map fun f =>
          (f, PrismaValue.placeholder f.name f.prismaType)).isEmpty = false := by
        cases defaults with
        | nil => exact absurd rfl hd
        | cons a l => rfl
      simp [buildCreateRecord, hb, hfpe, hd]
  · intro h hnd f hf
    have hb : (ctx.sqlFamily == SqlFamily.mysql) = true := by simp [h]
    have hfpe : (defaults.map fun f =>
        (f, PrismaValue.placeholder f.name f.prismaType)).isEmpty = false := by
      cases defaults with
      | nil => cases hf
      | cons a l => rfl
    have hq : (buildCreateRecord ctx m args defaults).insertQuery.params =
        ((defaults.map fun g => ((g.dbName : String),
            PrismaValue.placeholder g.name g.prismaType)).foldl
          (fun acc q => insertWriteArg acc q.1 q.2) args).map (·.2) := by
      simp [buildCreateRecord, hb, hfpe, createRecordQuery, DbQuery.params,
        List.foldl_map]
    rw [hq]
    refine List.mem_map.mpr ⟨(f.dbName, PrismaValue.placeholder f.name f.prismaType),
      ?_, rfl⟩
    apply mem_foldl_insertWriteArg
    · rw [List.map_map]
      exact hnd
    · exact List.mem_map.mpr ⟨f, hf, rfl⟩

def c9Field : ScalarField := ⟨"uid", "uid_col", "String", false⟩

def c9CtxMysql : Context := ⟨some "db", .mysql, none, none, ⟨[]⟩⟩

def c9CtxPg : Context := ⟨some "db", .postgres, none, none, ⟨[]⟩⟩

/-- C9 witness: the policy theorem at concrete MySQL and Postgres inputs. -/
theorem C9_build_create_record_witness :
    ((buildCreateRecord c9CtxPg ⟨[c9Field]⟩ [] [c9Field]).selectDefaults = none ∧
     (buildCreateRecord c9CtxPg ⟨[c9Field]⟩ [] [c9Field]).lastInsertIdField = none ∧
     (buildCreateRecord c9CtxPg ⟨[c9Field]⟩ [] [c9Field]).mergeValues = []) ∧
    ((buildCreateRecord c9CtxMysql ⟨[c9Field]⟩ [] [c9Field]).selectDefaults.isSome ↔
      ¬([c9Field] : List ScalarField) = []) ∧
    (PrismaValue.placeholder "uid" "String" ∈
      (buildCreateRecord c9CtxMysql ⟨[c9Field]⟩ [] [c9Field]).insertQuery.params) :=
  ⟨(C9_build_create_record c9CtxPg ⟨[c9Field]⟩ [] [c9Field]).1 (by decide),
   (C9_build_create_record c9CtxMysql ⟨[c9Field]⟩ [] [c9Field]).2.1 rfl,
   (C9_build_create_record c9CtxMysql ⟨[c9Field]⟩ [] [c9Field]).2.2 rfl (by decide)
     c9Field (by decide)⟩

/-! ## C10: sink arity panics in the transformer closure -/

/-- C10: for a `ProjectedDataSinkDependency` whose consumer demands a row
(`Single`, `ExactlyOne`, `ExactlyOneFilter`, `ExactlyOneWriteArgs`), the
fold step panics through `expect` when the parent binding projects to an
empty selection list (for instance when the edge carried no expectation),
instead of returning an `InterpreterError`; it can return normally only
when the projected list is non-empty. -/
theorem C10_sink_arity_panic (name : String)
    (rest : List (String × QueryGraphDependency)) (node : Node) (env : Env)
    (sel : FieldSelection) (consumer : RowSink) (binding : ExpressionResult)
    (hconsumer : consumer = .single ∨ consumer = .exactlyOne ∨
      consumer = .exactlyOneFilter ∨ ∃ sel2, consumer = .exactlyOneWriteArgs sel2)
    (henv : env.get name = some binding)
    (hproj : binding.asSelectionResults sel = .ok []) :
    applyDeps ((name, .projectedDataSinkDependency sel consumer none) :: rest)
      node env =
      .error (.panicked "parent selection should be present after validation") := by
  rcases hconsumer with rfl | rfl | rfl | ⟨sel2, rfl⟩ <;>
    simp [applyDeps, henv, checkExpectation, hproj, applySink, wrapBindingErr]

/-- C10 witness: the panic at a concrete empty projection with no
expectation on the edge. -/
theorem C10_sink_arity_panic_witness :
    (Env.get [("0", ExpressionResult.fixedResult [])] "0" =
      some (.fixedResult [])) ∧
    ((ExpressionResult.fixedResult []).asSelectionResults ⟨"s"⟩ = .ok []) ∧
    applyDeps [("0", .projectedDataSinkDependency ⟨"s"⟩ .single none)] .empty
      [("0", ExpressionResult.fixedResult [])] =
      .error (.panicked "parent selection should be present after validation") :=
  ⟨rfl, rfl,
   C10_sink_arity_panic "0" [] .empty [("0", ExpressionResult.fixedResult [])]
     ⟨"s"⟩ .single (.fixedResult []) (Or.inl rfl) rfl rfl⟩

/-! ## C5: error policy of the transformer closure -/

/-- Evaluate the closure of a `Func` expression produced by
`transform_node`. -/
def runFuncExpr (r : RunResult (Expression × GraphState)) (env : Env) :
    RunResult Expression :=
  match r with
  | .ok (.func f, _) => (f env).toExcept
  | .ok _ => .error (.panicked "expected a Func expression")
  | .error e => .error e

def c5FailExpectation : Expectation := fun _ => .error (.generic "expectation failed")

def c5G : QueryGraph :=
  ⟨[(.empty, false), (.empty, false)],
   [(⟨0, 1⟩, .dataDependency .discard (some c5FailExpectation))]⟩

/-- C5 counterexample: an expectation failure on a `DataDependency` edge
escapes the closure through `?` BEFORE the `map_err` call, so the closure
fails with the raw error, not with
`InterpretationError("Error for binding '<name>'", cause)`. -/
theorem C5_counterexample :
    runFuncExpr (transformNode c5G.shape [0] .empty (fun _ => .ok (.sequence []))
        c5G.initState) [("0", ExpressionResult.fixedResult [])] =
      .error (.interp (.generic "expectation failed")) ∧
    ∀ msg cause,
      runFuncExpr (transformNode c5G.shape [0] .empty (fun _ => .ok (.sequence []))
          c5G.initState) [("0", ExpressionResult.fixedResult [])] ≠
        .error (.interp (.interpretationError msg cause)) := by
  have base : runFuncExpr (transformNode c5G.shape [0] .empty
      (fun _ => .ok (.sequence [])) c5G.initState)
      [("0", ExpressionResult.fixedResult [])] =
      .error (.interp (.generic "expectation failed")) := rfl
  refine ⟨base, ?_⟩
  intro msg cause h
  rw [base] at h
  simp at h

/-- C5 (amended): in the `Func` closure, a missing parent binding fails
with `EnvVarNotFound`; an expectation or transformer failure on a
`ProjectedDataDependency` is wrapped as
`InterpretationError("Error for binding '<name>'", cause)` and
short-circuits the remaining dependencies; but an expectation failure on a
`DataDependency` edge escapes through `?` unwrapped (still
short-circuiting). -/
theorem C5_closure_error_policy :
    (∀ (name : String) (dep : QueryGraphDependency)
        (rest : List (String × QueryGraphDependency)) (node : Node) (env : Env),
      env.get name = none →
      applyDeps ((name, dep) :: rest) node env =
        .error (.interp (.envVarNotFound
          ("Expected parent binding \x27" ++ name ++ "\x27 to be present.")))) ∧
    (∀ (name : String) (sel : FieldSelection) (f : NodeTransformer)
        (exp : Option Expectation) (rest : List (String × QueryGraphDependency))
        (node : Node) (env : Env) (binding : ExpressionResult) (e : InterpreterError),
      env.get name = some binding →
      checkExpectation exp binding = .error e →
      applyDeps ((name, .projectedDataDependency sel f exp) :: rest) node env =
        .error (.interp (.interpretationError
          ("Error for binding \x27" ++ name ++ "\x27") (some e)))) ∧
    (∀ (name : String) (sel : FieldSelection) (f : NodeTransformer)
        (exp : Option Expectation) (rest : List (String × QueryGraphDependency))
        (node : Node) (env : Env) (binding : ExpressionResult)
        (rows : List SelectionResult) (e : InterpreterError),
      env.get name = some binding →
      checkExpectation exp binding = .ok () →
      binding.asSelectionResults sel = .ok rows →
      f node rows = .error e →
      applyDeps ((name, .projectedDataDependency sel f exp) :: rest) node env =
        .error (.interp (.interpretationError
          ("Error for binding \x27" ++ name ++ "\x27") (some e)))) ∧
    (∀ (name : String) (exp : Option Expectation)
        (rest : List (String × QueryGraphDependency)) (node : Node) (env : Env)
        (binding : ExpressionResult) (e : InterpreterError),
      env.get name = some binding →
      checkExpectation exp binding = .error e →
      applyDeps ((name, .dataDependency .discard exp) :: rest) node env =
        .error (.interp e)) := by
  refine ⟨?_, ?_, ?_, ?_⟩
  · intro name dep rest node env henv
    simp [applyDeps, henv]
  · intro name sel f exp rest node env binding e henv hexp
    simp [applyDeps, henv, hexp, wrapBindingErr]
  · intro name sel f exp rest node env binding rows e henv hexp hproj hf
    simp [applyDeps, henv, hexp, hproj, hf, wrapBindingErr]
  · intro name exp rest node env binding e henv hexp
    simp [applyDeps, henv, hexp]

/-- C5 witness: the error policy at concrete inputs. -/
theorem C5_closure_error_policy_witness :
    (Env.get ([] : Env) "0" = none ∧
      applyDeps [("0", .dataDependency .discard none)] .empty [] =
        .error (.interp (.envVarNotFound
          "Expected parent binding \x270\x27 to be present."))) ∧
    (checkExpectation (some c5FailExpectation) (.fixedResult []) =
        .error (.generic "expectation failed") ∧
      applyDeps [("0", .projectedDataDependency ⟨"s"⟩
          (fun n _ => .ok n) (some c5FailExpectation))] .empty
          [("0", ExpressionResult.fixedResult [])] =
        .error (.interp (.interpretationError "Error for binding \x270\x27"
          (some (.generic "expectation failed"))))) ∧
    (applyDeps [("0", .projectedDataDependency ⟨"s"⟩
        (fun _ _ => .error (.generic "transformer failed")) none)] .empty
        [("0", ExpressionResult.fixedResult [])] =
      .error (.interp (.interpretationError "Error for binding \x270\x27"
        (some (.generic "transformer failed"))))) ∧
    (applyDeps [("0", .dataDependency .discard (some c5FailExpectation))] .empty
        [("0", ExpressionResult.fixedResult [])] =
      .error (.interp (.generic "expectation failed"))) :=
  ⟨⟨rfl, C5_closure_error_policy.1 "0" (.dataDependency .discard none) [] .empty [] rfl⟩,
   ⟨rfl, C5_closure_error_policy.2.1 "0" ⟨"s"⟩ (fun n _ => .ok n)
      (some c5FailExpectation) [] .empty [("0", ExpressionResult.fixedResult [])]
      (.fixedResult []) (.generic "expectation failed") rfl rfl⟩,
   C5_closure_error_policy.2.2.1 "0" ⟨"s"⟩
      (fun _ _ => .error (.generic "transformer failed")) none [] .empty
      [("0", ExpressionResult.fixedResult [])] (.fixedResult []) []
      (.generic "transformer failed") rfl rfl rfl rfl,
   C5_closure_error_policy.2.2.2 "0" (some c5FailExpectation) [] .empty
      [("0", ExpressionResult.fixedResult [])] (.fixedResult [])
      (.generic "expectation failed") rfl rfl⟩

/-! ## C4: transformer edges decide `Func` versus direct expression -/

theorem edgeContentAt_pluck_self (st : GraphState) (e : Nat) :
    edgeContentAt (pluckEdge st e).2 e = none := by
  show (st.edgeContents.set e none).getD e none = none
  rcases Nat.lt_or_ge e st.edgeContents.length with h | h
  · simp [List.getD_eq_getElem?_getD, List.getElem?_set_self', h]
  · rw [List.set_eq_of_length_le (by simpa using h)]
    simp [List.getD_eq_getElem?_getD, List.getElem?_eq_none (by simpa using h)]

theorem edgeContentAt_pluck_ne (st : GraphState) (e e' : Nat) (h : e ≠ e') :
    edgeContentAt (pluckEdge st e).2 e' = edgeContentAt st e' := by
  show (st.edgeContents.set e none).getD e' none = st.edgeContents.getD e' none
  simp [List.getD_eq_getElem?_getD, List.getElem?_set_ne h]

theorem collectParentTransformers_eq_nil (G : GraphShape) :
    ∀ (pes : List Nat) (st : GraphState),
      (∀ e ∈ pes, ∀ dep, edgeContentAt st e = some dep →
        dep.isTransformer = false) →
      (collectParentTransformers G pes st).1 = [] := by
  intro pes
  induction pes with
  | nil => intro st _; rfl
  | cons e rest ih =>
    intro st h
    have hrest : ∀ e' ∈ rest, ∀ dep,
        edgeContentAt (pluckEdge st e).2 e' = some dep →
        dep.isTransformer = false := by
      intro e' he' dep hdep
      by_cases hee : e = e'
      · rw [← hee, edgeContentAt_pluck_self] at hdep
        cases hdep
      · rw [edgeContentAt_pluck_ne st e e' hee] at hdep
        exact h e' (List.mem_cons_of_mem _ he') dep hdep
    have hpl : (pluckEdge st e).1 = edgeContentAt st e := rfl
    cases hc : edgeContentAt st e with
    | none =>
      simp only [collectParentTransformers, hpl, hc]
      exact ih _ hrest
    | some dep =>
      simp only [collectParentTransformers, hpl, hc]
      rw [h e (List.mem_cons_self e rest) dep hc]
      simp only [Bool.false_eq_true, if_false]
      exact ih _ hrest

theorem collectParentTransformers_ne_nil (G : GraphShape) :
    ∀ (pes : List Nat) (st : GraphState) (e : Nat), e ∈ pes →
      ∀ dep, edgeContentAt st e = some dep → dep.isTransformer = true →
      (collectParentTransformers G pes st).1 ≠ [] := by
  intro pes
  induction pes with
  | nil => intro st e he; cases he
  | cons e' rest ih =>
    intro st e he dep hc ht
    have hpl : (pluckEdge st e').1 = edgeContentAt st e' := rfl
    by_cases hee : e = e'
    · subst hee
      simp only [collectParentTransformers, hpl, hc, ht]
      simp
    · have hmem : e ∈ rest := by
        rcases List.mem_cons.mp he with h | h
        · exact absurd h hee
        · exact h
      have hcontent : edgeContentAt (pluckEdge st e').2 e = some dep := by
        rw [edgeContentAt_pluck_ne st e' e (fun hh => hee hh.symm)]
        exact hc
      cases hc' : edgeContentAt st e' with
      | none =>
        simp only [collectParentTransformers, hpl, hc']
        exact ih (pluckEdge st e').2 e hmem dep hcontent ht
      | some dep' =>
        cases htd : dep'.isTransformer with
        | true =>
          simp only [collectParentTransformers, hpl, hc', htd]
          simp
        | false =>
          simp only [collectParentTransformers, hpl, hc', htd]
          simp only [Bool.false_eq_true, if_false]
          exact ih (pluckEdge st e').2 e hmem dep hcontent ht

/-- C4: `transform_node` emits a `Func` exactly when at least one incoming
edge carries a transformer (`ProjectedDataDependency`,
`ProjectedDataSinkDependency` or `DataDependency`); when none does, the
expression produced by `into_expr` is returned directly. -/
theorem C4_transform_node (G : GraphShape) (parentEdges : List Nat) (node : Node)
    (intoExpr : Node → RunResult Expression) (st : GraphState) :
    ((∀ e ∈ parentEdges, ∀ dep, edgeContentAt st e = some dep →
        dep.isTransformer = false) →
      ∃ st', transformNode G parentEdges node intoExpr st =
        (intoExpr node).map (fun ex => (ex, st'))) ∧
    ((∃ e ∈ parentEdges, ∃ dep, edgeContentAt st e = some dep ∧
        dep.isTransformer = true) →
      ∃ f st', transformNode G parentEdges node intoExpr st =
        .ok (.func f, st')) := by
  constructor
  · intro h
    cases hpe : parentEdges with
    | nil => exact ⟨st, by simp [transformNode]⟩
    | cons e rest =>
      rw [← hpe]
      have hnil := collectParentTransformers_eq_nil G parentEdges st h
      refine ⟨(collectParentTransformers G parentEdges st).2, ?_⟩
      simp only [transformNode]
      rw [if_neg (by rw [hpe]; simp)]
      simp [hnil]
  · rintro ⟨e, he, dep, hc, ht⟩
    have hne := collectParentTransformers_ne_nil G parentEdges st e he dep hc ht
    have hpe : parentEdges.isEmpty = false := by
      cases parentEdges with
      | nil => cases he
      | cons a l => rfl
    refine ⟨fun env => FuncResult.ofExcept
      ((applyDeps (collectParentTransformers G parentEdges st).1 node env).bind
        intoExpr), (collectParentTransformers G parentEdges st).2, ?_⟩
    simp only [transformNode]
    rw [if_neg (by rw [hpe]; simp)]
    rw [if_neg (by simpa [List.isEmpty_iff] using hne)]

def c4G : QueryGraph :=
  ⟨[(.empty, false), (.empty, false)],
   [(⟨0, 1⟩, .projectedDataDependency ⟨"s"⟩ (fun n _ => .ok n) none),
    (⟨0, 1⟩, .execOrder)]⟩

/-- C4 witness: a transformer edge yields a `Func`; a structural-only edge
set returns the `into_expr` result directly. -/
theorem C4_transform_node_witness :
    ((∀ e ∈ [1], ∀ dep, edgeContentAt c4G.initState e = some dep →
        dep.isTransformer = false) ∧
      ∃ st', transformNode c4G.shape [1] .empty
          (fun _ => .ok (.sequence [])) c4G.initState =
        ((fun (_ : Node) => (.ok (.sequence []) : RunResult Expression)) .empty).map
          (fun ex => (ex, st'))) ∧
    ((∃ e ∈ [0], ∃ dep, edgeContentAt c4G.initState e = some dep ∧
        dep.isTransformer = true) ∧
      ∃ f st', transformNode c4G.shape [0] .empty
          (fun _ => .ok (.sequence [])) c4G.initState = .ok (.func f, st')) := by
  have hplain : ∀ e ∈ [1], ∀ dep, edgeContentAt c4G.initState e = some dep →
      dep.isTransformer = false := by
    intro e he dep hdep
    have he1 : e = 1 := by simpa using he
    subst he1
    have hh : edgeContentAt c4G.initState 1 = some .execOrder := rfl
    rw [hh] at hdep
    rw [← Option.some.inj hdep]
    rfl
  have htrans : ∃ e ∈ [0], ∃ dep, edgeContentAt c4G.initState e = some dep ∧
      dep.isTransformer = true :=
    ⟨0, by simp, .projectedDataDependency ⟨"s"⟩ (fun n _ => .ok n) none, rfl, rfl⟩
  exact ⟨⟨hplain, (C4_transform_node c4G.shape [1] .empty
      (fun _ => .ok (.sequence [])) c4G.initState).1 hplain⟩,
    ⟨htrans, (C4_transform_node c4G.shape [0] .empty
      (fun _ => .ok (.sequence [])) c4G.initState).2 htrans⟩⟩

/-! ## C8: computation nodes compute hash-set differences at interpretation
time -/

/-- The closure captured by the base `Func` of a computation node. -/
def computationClosure (comp : ComputationNode) : Env → FuncResult :=
  fun _ =>
    match comp with
    | .diffLeftToRight d => .ok (.ret (.fixedResult (hashSetDiff d.left d.right)))
    | .diffRightToLeft d => .ok (.ret (.fixedResult (hashSetDiff d.right d.left)))

/-- The set difference a computation node denotes: `L \ R` for
`DiffLeftToRight`, `R \ L` for `DiffRightToLeft`. -/
def computationDiff (comp : ComputationNode) : List SelectionResult :=
  match comp with
  | .diffLeftToRight d => hashSetDiff d.left d.right
  | .diffRightToLeft d => hashSetDiff d.right d.left

/-- C8: for a computation node with no children and no parent edges, the
emitted base expression is a `Func` whose closure returns
`Return { result: FixedResult(diff) }`, with `diff = L \ R` for
`DiffLeftToRight` and `R \ L` for `DiffRightToLeft` (hash-set difference).
-/
theorem C8_computation (G : GraphShape) (fuel n : Nat) (st : GraphState)
    (comp : ComputationNode)
    (hcontent : nodeContentAt st n = some (.computation comp))
    (hchildren : directChildPairs G (markVisited st n) n = []) :
    (∃ st', buildComputationExpression G (fuel + 2) n [] st =
      .ok (.func (computationClosure comp), st')) ∧
    ∀ env, computationClosure comp env =
      .ok (.ret (.fixedResult (computationDiff comp))) := by
  constructor
  · have h1 : nodeContentAt (markVisited st n) n = some (.computation comp) :=
      hcontent
    refine ⟨{ markVisited st n with
      nodeContents := (markVisited st n).nodeContents.set n none }, ?_⟩
    show buildComputationExpression G (fuel + 1 + 1) n [] st = _
    simp only [buildComputationExpression, hchildren]
    simp only [buildExprList]
    simp only [pluckNode, h1]
    simp only [transformNode, List.isEmpty_nil, if_true, Except.map]
    cases comp <;> rfl
  · intro env
    cases comp <;> rfl

def s4Row (i : Int) : SelectionResult := ⟨[("id", .int i)]⟩

def s4Comp : ComputationNode :=
  .diffLeftToRight ⟨[s4Row 1, s4Row 2, s4Row 3], [s4Row 2, s4Row 3, s4Row 4]⟩

def s4G : QueryGraph := ⟨[(.computation s4Comp, false)], []⟩

/-- C8 witness: scenario S4 — `DiffLeftToRight` with `left = [1,2,3]` and
`right = [2,3,4]` emits a `Func` whose closure returns
`FixedResult([1])`. -/
theorem C8_computation_witness :
    (nodeContentAt s4G.initState 0 = some (.computation s4Comp)) ∧
    (directChildPairs s4G.shape (markVisited s4G.initState 0) 0 = []) ∧
    (∃ st', buildComputationExpression s4G.shape 2 0 [] s4G.initState =
      .ok (.func (computationClosure s4Comp), st')) ∧
    computationClosure s4Comp [] =
      .ok (.ret (.fixedResult [s4Row 1])) :=
  ⟨rfl, rfl,
   (C8_computation s4G.shape 0 0 s4G.initState s4Comp rfl rfl).1,
   (C8_computation s4G.shape 0 0 s4G.initState s4Comp rfl rfl).2 []⟩

/-! ## C2: If nodes — missing `Then` panics, missing `Else` is empty -/

def c2Rule : FlowRule := fun _ => false

def c2NoThenG : QueryGraph := ⟨[(.flow (.ifRule c2Rule []), false)], []⟩

/-- C2 counterexample: a `Flow(If)` node with no outgoing `Then` edge makes
the compiler PANIC (the `expect` at `translate_if_node`), not return a
value of the error type. -/
theorem C2_counterexample :
    translateGraph 10 c2NoThenG =
      .error (.panicked
        "Expected if-node to always have a then edge to another node.") ∧
    ∀ e, translateGraph 10 c2NoThenG ≠ .error (.interp e) := by
  have base : translateGraph 10 c2NoThenG =
      .error (.panicked
        "Expected if-node to always have a then edge to another node.") := rfl
  refine ⟨base, ?_⟩
  intro e h
  rw [base] at h
  simp at h

def ifNoThenGraph (rule : FlowRule) (data : List SelectionResult) : QueryGraph :=
  ⟨[(.flow (.ifRule rule data), false)], []⟩

def ifThenGraph (rule : FlowRule) (data : List SelectionResult)
    (q : QueryNode) : QueryGraph :=
  ⟨[(.flow (.ifRule rule data), false), (.query q, false)],
   [(⟨0, 1⟩, .thenBranch)]⟩

/-- C2 (amended): compiling a graph whose `Flow(If)` node lacks a `Then`
edge panics through `expect` (it does not return a compile-error value);
when the `Then` edge is present and the `Else` edge absent, the emitted
`If` expression has an empty else list. -/
theorem C2_if_node :
    (∀ (rule : FlowRule) (data : List SelectionResult),
      translateGraph 10 (ifNoThenGraph rule data) =
        .error (.panicked
          "Expected if-node to always have a then edge to another node.")) ∧
    (∀ (rule : FlowRule) (data : List SelectionResult) (q : QueryNode),
      (translateGraph 10 (ifThenGraph rule data q)).map Expression.shape =
        .ok (.sequence [.ifCond [.query] []])) := by
  constructor
  · intro rule data
    rfl
  · intro rule data q
    rfl

/-! ## C6: result nodes propagate their binding with a trailing `Get` -/

/-- Query-node case: if a query node is a result node and its compilation
produced at least one child expression, the emitted `Let` binds the node id
and its body ends with `Get { binding_name: node.id }`. -/
theorem letBody_get_query_node (G : GraphShape) (fuel n : Nat)
    (parentEdges : List Nat) (st : GraphState) (e : Expression)
    (st' : GraphState) (ces : List Expression) (st₂ : GraphState)
    (hres : isResultNode G n = true)
    (hproc : processChildren G fuel (directChildPairs G (markVisited st n) n)
      (markVisited st n) = .ok (ces, st₂))
    (hne : ¬ces = [])
    (hok : buildQueryExpression G (fuel + 1) n parentEdges st = .ok (e, st')) :
    ∃ expr, e = .letIn [(toString n, expr)] (ces ++ [.get (toString n)]) := by
  simp only [buildQueryExpression] at hok
  rw [hproc] at hok
  simp only [] at hok
  cases hp : pluckNode st₂ n with
  | error er =>
    rw [hp] at hok
    cases hok
  | ok p =>
    obtain ⟨node, st₃⟩ := p
    rw [hp] at hok
    simp only [] at hok
    cases ht : transformNode G parentEdges node (fun node =>
        match node with
        | .query q => .ok (.query q)
        | _ => .error (.interp (.generic "Only query nodes implement Into<Query>")))
        st₃ with
    | error er =>
      rw [ht] at hok
      cases hok
    | ok p2 =>
      obtain ⟨expr, st₄⟩ := p2
      rw [ht] at hok
      simp only [] at hok
      rw [if_neg (by simpa [List.isEmpty_iff] using hne)] at hok
      rw [hres] at hok
      simp only [if_true] at hok
      refine ⟨expr, ?_⟩
      have := (Except.ok.inj hok)
      have he : Expression.letIn [(toString n, expr)] (ces ++ [.get (toString n)]) = e :=
        congrArg Prod.fst this
      exact he.symm

def c6q (i : Nat) : QueryNode := ⟨i, ⟨[]⟩, [], ⟨[]⟩, [], none⟩

def c6G : QueryGraph :=
  ⟨[(.query (c6q 0), true), (.query (c6q 1), false)], [(⟨0, 1⟩, .execOrder)]⟩

def c6Ces : List Expression := [.query (c6q 1)]

def c6St2 : GraphState := ⟨[some (.query (c6q 0)), none], [true, true], [none]⟩

def c6StFinal : GraphState := ⟨[none, none], [true, true], [none]⟩

/-- Query-node example: a concrete result node with one child compiles to
a `Let` whose body ends with `Get "0"`. -/
theorem letBody_get_query_node_example :
    (isResultNode c6G.shape 0 = true) ∧
    (processChildren c6G.shape 8
      (directChildPairs c6G.shape (markVisited c6G.initState 0) 0)
      (markVisited c6G.initState 0) = .ok (c6Ces, c6St2)) ∧
    (¬c6Ces = []) ∧
    (buildQueryExpression c6G.shape 9 0 [] c6G.initState =
      .ok (.letIn [("0", .query (c6q 0))] [.query (c6q 1), .get "0"], c6StFinal)) ∧
    (∃ expr, (Expression.letIn [("0", .query (c6q 0))] [.query (c6q 1), .get "0"]) =
      .letIn [("0", expr)] (c6Ces ++ [.get "0"])) := by
  have hfull : buildQueryExpression c6G.shape 9 0 [] c6G.initState =
      .ok (.letIn [("0", .query (c6q 0))] [.query (c6q 1), .get "0"], c6StFinal) := rfl
  refine ⟨rfl, rfl, by simp [c6Ces], hfull, ?_⟩
  exact letBody_get_query_node c6G.shape 8 0 [] c6G.initState _ _ c6Ces c6St2
    rfl rfl (by simp [c6Ces]) hfull


def c6Comp : ComputationNode := .diffLeftToRight ⟨[], []⟩

/-- A computation node flagged as result node, with one query child. -/
def c6CompG : QueryGraph :=
  ⟨[(.computation c6Comp, true), (.query (c6q 1), false)],
   [(⟨0, 1⟩, .execOrder)]⟩

def c6CompSt2 : GraphState :=
  ⟨[some (.computation c6Comp), none], [true, true], [none]⟩

/-- C6 counterexample: a COMPUTATION node that is a result node and whose
compilation produced one child expression emits
`Let { bindings: [node.id = Func], expressions: [child] }` WITHOUT the
trailing `Get { binding_name: node.id }` — only the query-node path
appends it. -/
theorem C6_counterexample :
    isResultNode c6CompG.shape 0 = true ∧
    buildExprList c6CompG.shape 8
      (directChildPairs c6CompG.shape (markVisited c6CompG.initState 0) 0)
      (markVisited c6CompG.initState 0) =
      .ok ([.query (c6q 1)], c6CompSt2) ∧
    (∃ body, (translateGraph 20 c6CompG).map Expression.shape =
        .ok (.sequence [.letIn [("0", .func)] body]) ∧
      ¬body = [] ∧ ¬body.getLast? = some (.get "0")) := by
  refine ⟨rfl, rfl, [ExprShape.query], rfl, by simp, by simp⟩

/-- C6 (amended): only QUERY nodes propagate their result binding — a query
node that is a result node with at least one child expression gets
`Get { binding_name: node.id }` appended as the last expression of its
`Let` body; a computation node with children emits its `Let` with the child
expressions alone, appending no `Get` even when it is a result node. -/
theorem C6_get_append_policy :
    (∀ (G : GraphShape) (fuel n : Nat) (parentEdges : List Nat)
        (st : GraphState) (e : Expression) (st' : GraphState)
        (ces : List Expression) (st₂ : GraphState),
      isResultNode G n = true →
      processChildren G fuel (directChildPairs G (markVisited st n) n)
        (markVisited st n) = .ok (ces, st₂) →
      ¬ces = [] →
      buildQueryExpression G (fuel + 1) n parentEdges st = .ok (e, st') →
      ∃ expr, e = .letIn [(toString n, expr)] (ces ++ [.get (toString n)])) ∧
    (∀ (G : GraphShape) (fuel n : Nat) (parentEdges : List Nat)
        (st : GraphState) (e : Expression) (st' : GraphState)
        (ces : List Expression) (st₂ : GraphState),
      buildExprList G fuel (directChildPairs G (markVisited st n) n)
        (markVisited st n) = .ok (ces, st₂) →
      ¬ces = [] →
      buildComputationExpression G (fuel + 1) n parentEdges st = .ok (e, st') →
      ∃ expr, e = .letIn [(toString n, expr)] ces) := by
  constructor
  · intro G fuel n parentEdges st e st' ces st₂ hres hproc hne hok
    exact letBody_get_query_node G fuel n parentEdges st e st' ces st₂
      hres hproc hne hok
  · intro G fuel n parentEdges st e st' ces st₂ hexprs hne hok
    simp only [buildComputationExpression] at hok
    rw [hexprs] at hok
    simp only [] at hok
    cases hp : pluckNode st₂ n with
    | error er =>
      rw [hp] at hok
      cases hok
    | ok p =>
      obtain ⟨node, st₃⟩ := p
      rw [hp] at hok
      simp only [] at hok
      cases ht : transformNode G parentEdges node (fun node =>
          .ok (.func fun _ =>
            match node with
            | .computation (.diffLeftToRight d) =>
              .ok (.ret (.fixedResult (hashSetDiff d.left d.right)))
            | .computation (.diffRightToLeft d) =>
              .ok (.ret (.fixedResult (hashSetDiff d.right d.left)))
            | _ => .error (.panicked "unreachable"))) st₃ with
      | error er =>
        rw [ht] at hok
        cases hok
      | ok p2 =>
        obtain ⟨expr, st₄⟩ := p2
        rw [ht] at hok
        simp only [] at hok
        rw [if_neg (by simpa [List.isEmpty_iff] using hne)] at hok
        refine ⟨expr, ?_⟩
        have := Except.ok.inj hok
        exact (congrArg Prod.fst this).symm

/-- C6 witness: the policy at concrete graphs — a query result node gets
the trailing `Get "0"`, a computation result node does not. -/
theorem C6_get_append_policy_witness :
    (isResultNode c6G.shape 0 = true ∧
      processChildren c6G.shape 8
        (directChildPairs c6G.shape (markVisited c6G.initState 0) 0)
        (markVisited c6G.initState 0) = .ok (c6Ces, c6St2) ∧
      ¬c6Ces = [] ∧
      buildQueryExpression c6G.shape 9 0 [] c6G.initState =
        .ok (.letIn [("0", .query (c6q 0))] [.query (c6q 1), .get "0"],
          c6StFinal) ∧
      ∃ expr, (Expression.letIn [("0", .query (c6q 0))]
          [.query (c6q 1), .get "0"]) =
        .letIn [("0", expr)] (c6Ces ++ [.get "0"])) ∧
    (buildExprList c6CompG.shape 8
        (directChildPairs c6CompG.shape (markVisited c6CompG.initState 0) 0)
        (markVisited c6CompG.initState 0) = .ok ([.query (c6q 1)], c6CompSt2) ∧
      ¬([Expression.query (c6q 1)] : List Expression) = [] ∧
      buildComputationExpression c6CompG.shape 9 0 [] c6CompG.initState =
        .ok (.letIn [("0", .func (computationClosure c6Comp))]
          [.query (c6q 1)], ⟨[none, none], [true, true], [none]⟩) ∧
      ∃ expr, (Expression.letIn [("0", .func (computationClosure c6Comp))]
          [.query (c6q 1)]) = .letIn [("0", expr)] [.query (c6q 1)]) := by
  have hq : buildQueryExpression c6G.shape 9 0 [] c6G.initState =
      .ok (.letIn [("0", .query (c6q 0))] [.query (c6q 1), .get "0"],
        c6StFinal) := rfl
  have hc : buildComputationExpression c6CompG.shape 9 0 []
      c6CompG.initState =
      .ok (.letIn [("0", .func (computationClosure c6Comp))]
        [.query (c6q 1)], ⟨[none, none], [true, true], [none]⟩) := rfl
  exact ⟨⟨rfl, rfl, by simp [c6Ces], hq,
      C6_get_append_policy.1 c6G.shape 8 0 [] c6G.initState _ _ c6Ces c6St2
        rfl rfl (by simp [c6Ces]) hq⟩,
    ⟨rfl, by simp, hc,
      C6_get_append_policy.2 c6CompG.shape 8 0 [] c6CompG.initState _ _
        [.query (c6q 1)] c6CompSt2 rfl (by simp) hc⟩⟩

/-! ## C7: folding result subgraphs -/

def c7q (i : Nat) : QueryNode := ⟨i, ⟨[]⟩, [], ⟨[]⟩, [], none⟩

/-- A diamond: root 0 with children 1, 2, 3, each pointing at the single
result node 4. -/
def c7G : QueryGraph :=
  ⟨[(.query (c7q 0), false), (.query (c7q 1), false), (.query (c7q 2), false),
    (.query (c7q 3), false), (.query (c7q 4), true)],
   [(⟨0, 1⟩, .execOrder), (⟨0, 2⟩, .execOrder), (⟨0, 3⟩, .execOrder),
    (⟨1, 4⟩, .execOrder), (⟨2, 4⟩, .execOrder), (⟨3, 4⟩, .execOrder)]⟩

/-- What the compiler actually emits for `c7G`: the later result bindings
become SIBLINGS in the first `Let`'s body (the middle one with an empty
body), only the last closing with a `Get`. -/
def c7ActualShape : ExprShape :=
  .sequence [.letIn [("0", .query)]
    [.letIn [("3", .letIn [("3", .query)] [.letIn [("4", .query)] [.get "4"]])]
      [.letIn [("2", .query)] [], .letIn [("1", .query)] [.get "1"]]]]

/-- What the claim predicts for `c7G`: a chain of nested `Let`s, each body
holding exactly the next link. -/
def c7ChainShape : ExprShape :=
  .sequence [.letIn [("0", .query)]
    [.letIn [("3", .letIn [("3", .query)] [.letIn [("4", .query)] [.get "4"]])]
      [.letIn [("2", .query)] [.letIn [("1", .query)] [.get "1"]]]]]

/-- C7 counterexample: a diamond graph with one global result node and
three result children folds FLAT — all later `Let`s are pushed into the
FIRST `Let`'s body (the middle `Let` has an empty body) — not into a chain
of nested `Let`s each holding the next. -/
theorem C7_counterexample :
    (translateGraph 64 c7G).map Expression.shape = .ok c7ActualShape ∧
    (resultNodes c7G.shape).length = 1 ∧
    c7ActualShape ≠ c7ChainShape := by
  refine ⟨rfl, rfl, ?_⟩
  simp [c7ActualShape, c7ChainShape]

/-- The tail of the single-result-node fold: every binding in its own
`Let`, the last one closing with `Get { binding_name: last.name }`. -/
def tailLets : List Binding → List Expression
  | [] => []
  | [b] => [.letIn [b] [.get b.1]]
  | b :: rest => .letIn [b] [] :: tailLets rest

theorem foldPush_flat (es : List Expression) :
    ∀ (bsx : List Binding) (e0 : List Expression),
      es.foldl (fun acc next =>
        match acc with
        | Expression.letIn bs es2 => Expression.letIn bs (es2 ++ [next])
        | other => other) (Expression.letIn bsx e0) =
      Expression.letIn bsx (e0 ++ es) := by
  induction es with
  | nil => intro bsx e0; simp
  | cons x xs ih =>
    intro bsx e0
    simp only [List.foldl_cons]
    rw [ih bsx (e0 ++ [x])]
    simp

theorem tailLets_eq :
    ∀ (rest : List Binding) (b : Binding),
      ((b :: rest).map (fun x => Expression.letIn [x] [])).dropLast ++
        [Expression.letIn [(b :: rest).getLast (by simp)]
          [.get ((b :: rest).getLast (by simp)).1]] =
      tailLets (b :: rest) := by
  intro rest
  induction rest with
  | nil =>
    intro b
    simp [tailLets]
  | cons r rs ih =>
    intro b
    simp only [List.map_cons]
    rw [List.dropLast_cons₂]
    have hlast : (b :: r :: rs).getLast (by simp) = (r :: rs).getLast (by simp) :=
      List.getLast_cons (by simp)
    rw [hlast, List.cons_append]
    rw [show tailLets (b :: r :: rs) =
      Expression.letIn [b] [] :: tailLets (r :: rs) from rfl]
    congr 1
    have h2 := ih r
    simp only [List.map_cons] at h2
    exact h2

theorem pushGetOnLast_singleLets (b : Binding) (rest : List Binding) :
    pushGetOnLast ((b :: rest).map (fun x => Expression.letIn [x] [])) =
      .ok (((b :: rest).map (fun x => Expression.letIn [x] [])).dropLast ++
        [Expression.letIn [(b :: rest).getLast (by simp)]
          [.get ((b :: rest).getLast (by simp)).1]]) := by
  unfold pushGetOnLast
  have h1 : ((b :: rest).map (fun x => Expression.letIn [x] [])).getLast? =
      some (Expression.letIn [(b :: rest).getLast (by simp)] []) := by
    rw [List.getLast?_map]
    rw [List.getLast?_eq_getLast (b :: rest) (by simp)]
    rfl
  rw [h1]
  simp

/-- C7 (amended): with exactly one global result node, the fold wraps each
binding in its own `Let`, appends `Get { binding_name: last.name }` to the
LAST `Let`, and pushes all subsequent `Let`s as SIBLINGS into the FIRST
`Let`'s body (they are not nested each inside the previous); with any other
result-node count (in particular `k ≥ 2`), the fold emits exactly one `Let`
holding all bindings whose body is the single `GetFirstNonEmpty` over the
binding names in the order they were built. -/
theorem C7_fold_result_scopes :
    (∀ (b : Binding) (rest : List Binding),
      foldBindings (b :: rest) 1 =
        .ok (.letIn [b] (if rest.isEmpty then [.get b.1] else tailLets rest))) ∧
    (∀ (bindings : List Binding) (count : Nat), 2 ≤ count →
      foldBindings bindings count =
        .ok (.letIn bindings [.getFirstNonEmpty (bindings.map (·.1))])) := by
  constructor
  · intro b rest
    unfold foldBindings
    rw [pushGetOnLast_singleLets b rest]
    cases rest with
    | nil => simp
    | cons r rs =>
      simp only [List.map_cons, List.dropLast_cons₂, List.cons_append,
        List.isEmpty_cons]
      have hlast : (b :: r :: rs).getLast (by simp) =
          (r :: rs).getLast (by simp) := List.getLast_cons (by simp)
      rw [hlast]
      rw [show ((1 : Nat) == 1) = true from rfl]
      simp only [if_true]
      rw [foldPush_flat]
      rw [List.nil_append]
      have h2 := tailLets_eq rs r
      simp only [List.map_cons] at h2
      rw [h2]
      simp
  · intro bindings count hc
    unfold foldBindings
    rw [show (count == 1) = false from by simp only [beq_eq_false_iff_ne]; omega]
    simp

/-- C7 witness: the fold theorem at three concrete bindings (single result
node: flat body, middle `Let` empty) and at result-node count 2
(`GetFirstNonEmpty`). -/
theorem C7_fold_result_scopes_witness :
    (foldBindings [("a", .get "x"), ("b", .get "y"), ("c", .get "z")] 1 =
      .ok (.letIn [("a", .get "x")]
        [.letIn [("b", .get "y")] [],
         .letIn [("c", .get "z")] [.get "c"]])) ∧
    (2 ≤ 2 ∧
      foldBindings [("a", .get "x"), ("b", .get "y")] 2 =
        .ok (.letIn [("a", .get "x"), ("b", .get "y")]
          [.getFirstNonEmpty ["a", "b"]])) :=
  ⟨C7_fold_result_scopes.1 ("a", .get "x") [("b", .get "y"), ("c", .get "z")],
   ⟨by omega, C7_fold_result_scopes.2 [("a", .get "x"), ("b", .get "y")] 2 (by omega)⟩⟩
